import Mathlib

set_option autoImplicit false

/-! A shallow embedding of log4js-node, `lib/logger.js`.

The module `lib/logger.js` defines the `LoggingEvent` record, the `Logger`
class (threshold management, the generic `log` entry point, the generated
per-level methods, the internal `_log` emit path), the process-wide switches
`logWritesEnabled` and `logTracing`, and the call-site capture `getTraceInfo`.

Conventions of the embedding:

* module variables and the observable output (the sequence of `emit` calls)
  live in `State`; a logger object is a `Logger` value passed as `this`;
* a function that can throw returns `Except JSError _`;
* the members attached by `addLevelMethods` are kept in the table
  `State.proto` and are reached through `Logger.invoke`; inside the bodies,
  the calls `this.isLevelEnabled`, `this._log`, `this.emit` and the read
  `this.level` are bound to the members written out in the source, which is
  what the code does in every state that has no generated member under one of
  these names; `Logger.callLog` is the client's call of `log`, for which a
  generated member of that name takes the place of the function of line 56;
* canonical names are strings of ASCII characters: on these the case mapping
  of the runtime is the ASCII one that `toLowerCase` and `isEnabledName` use;
* `new Date()` is the parameter `now`;
* the `./levels` module and the `stack-trace` package are not part of the
  file: the first is the parameter `Levels`, the second the list of frames
  handed to `getTraceInfo`.
-/

namespace Log4js

/-! ## JavaScript values and errors -/

/-- The JavaScript values that are handed to the logger, as level designators or
as payload. `number` carries integer-valued numbers only; payload values are
never computed with. `object` is any other object, named by its reference. -/
inductive JSValue (Level : Type) where
  | undefined
  | null
  | boolean (b : Bool)
  | number (n : Int)
  | string (s : String)
  | level (l : Level)
  | object (ref : Nat)
  deriving DecidableEq, Repr

/-- The exceptions the code of the module can raise. -/
inductive JSError where
  | rangeError
  | typeError
  deriving DecidableEq, Repr

/-- JavaScript truthiness, as used by `||` and `if (...)`. -/
def JSValue.truthy {Level : Type} : JSValue Level → Bool
  | .undefined => false
  | .null => false
  | .boolean b => b
  | .number n => n != 0
  | .string s => s != ""
  | .level _ => true
  | .object _ => true

/-! ## The `./levels` collaborator -/

/-- Modelled from the spec: the `./levels` module, which is required by
`logger.js` but is not part of it. The spec gives it as a capability:
"given a level name or value, resolve to a canonical Level with a total order
and an isLessThanOrEqualTo comparison", with `resolve(input, fallback)`,
`Level.isLessThanOrEqualTo(Level)` and `Level.toString()`. `resolve x = none`
says that `x` is not recognised (or is absent). No law is assumed of the
order; a theorem that needs one states it as a hypothesis. -/
structure Levels (Level : Type) where
  TRACE : Level
  INFO : Level
  resolve : JSValue Level → Option Level
  isLessThanOrEqualTo : Level → Level → Bool
  toString : Level → String

/-- Modelled from the spec: `levels.toLevel(sArg, defaultLevel)`, "resolves
levelLike, using the fallback when resolution fails or input is absent". -/
def Levels.toLevel {Level : Type} (lv : Levels Level) (sArg : JSValue Level)
    (defaultLevel : Level) : Level :=
  match lv.resolve sArg with
  | some l => l
  | none => defaultLevel

/-- Modelled from the spec: `levels.toLevel(sArg)` called without a fallback, as
`addLevelMethods` does; the fallback is then `undefined`, here `none`. -/
def Levels.toLevelNoDefault {Level : Type} (lv : Levels Level) (sArg : JSValue Level) :
    Option Level :=
  lv.resolve sArg

/-! ## Data model -/

/-- The object returned by `getTraceInfo`. -/
structure TraceInfo where
  path : String
  file : String
  function : Option String
  line : Option Nat
  column : Option Nat
  deriving DecidableEq, Repr

/-- The values the `location` field of an event can hold: the literal `{}`, a
function object (named), or a call-site descriptor. -/
inductive Location where
  | emptyObject
  | functionRef (name : String)
  | traceInfo (t : TraceInfo)
  deriving DecidableEq, Repr

/-- The record built by `function LoggingEvent (categoryName, level, data, logger,
location)`; `logger` holds the reference of the originating logger. -/
structure LoggingEvent (Level : Type) where
  startTime : Nat
  categoryName : String
  data : List (JSValue Level)
  level : Level
  logger : Nat
  location : Location
  deriving DecidableEq, Repr

/-- A logger object: `ref` is its identity, `category` the own property set by the
constructor, `level` the OWN property `level` (`none` when the object has none
and the read falls through to `Logger.prototype.level`). -/
structure Logger (Level : Type) where
  ref : Nat
  category : String
  level : Option Level
  deriving DecidableEq, Repr

/-- One call `emitter.emit(topic, event)`. -/
structure Publication (Level : Type) where
  emitter : Nat
  topic : String
  event : LoggingEvent Level
  deriving DecidableEq, Repr

/-- The two closures that `addLevelMethods` attaches to `Logger.prototype`, each
with the level it captured. -/
inductive Generated (Level : Type) where
  | isEnabledQuery (level : Level)
  | levelMethod (level : Level)
  deriving DecidableEq, Repr

/-- Module state: the variables `logWritesEnabled` and `logTracing`, the members
attached to `Logger.prototype` by `addLevelMethods`, and the calls to `emit`
made so far, oldest first. -/
structure State (Level : Type) where
  logWritesEnabled : Bool
  logTracing : Bool
  proto : List (String × Generated Level)
  published : List (Publication Level)
  deriving DecidableEq, Repr

/-- The constant `DEFAULT_CATEGORY`. -/
def DEFAULT_CATEGORY : String := "[default]"

/-- The module variables as initialised at lines 8-9, before any method is
generated and before any event is published. -/
def State.fresh (Level : Type) : State Level :=
  { logWritesEnabled := true, logTracing := false, proto := [], published := [] }

/-! ## Helpers standing for JavaScript built-ins -/

/-- The value of `new Array(n)`: a `RangeError` for a negative length, else `n`
empty slots (read as `undefined`). Argument lists are far shorter than the
upper limit on array lengths, which is left out. -/
def newArray {Level : Type} (n : Int) : Except JSError (List (JSValue Level)) :=
  if n < 0 then .error .rangeError else .ok (List.replicate n.toNat .undefined)

/-- The loop `for (var i = 0; i < numArgs; i++) args[i] = arguments[i + offset]`. -/
def copyArguments {Level : Type} (arguments : List (JSValue Level)) (offset numArgs : Nat)
    (args : List (JSValue Level)) : List (JSValue Level) :=
  (List.range numArgs).foldl
    (fun acc i => acc.set i (arguments.getD (i + offset) .undefined)) args

/-- The call `emitter.emit(topic, event)` of the event emitter the logger inherits
from: recorded in `published`. -/
def emit {Level : Type} (emitter : Logger Level) (topic : String) (event : LoggingEvent Level)
    (s : State Level) : State Level :=
  { s with published := s.published ++ [{ emitter := emitter.ref, topic := topic, event := event }] }

/-- The method `String.prototype.toLowerCase` on a string of ASCII characters:
on these the case mapping of the runtime maps `A` to `Z` onto `a` to `z` and
leaves every other character. A string with other characters is outside the
embedding; what is proved of names is stated for ASCII names. -/
def toLowerCase (s : String) : String := String.mk (s.data.map Char.toLower)

/-- The call `s.replace(/_([a-z])/g, function(g) { return g[1].toUpperCase(); })`:
scanning left to right, an underscore followed by a lower-case ASCII letter is
replaced by that letter in upper case, and the scan resumes after the letter. -/
def replaceUnderscoreLower : List Char → List Char
  | [] => []
  | [c] => [c]
  | c :: d :: rest =>
    if c = '_' ∧ 'a' ≤ d ∧ d ≤ 'z' then d.toUpper :: replaceUnderscoreLower rest
    else c :: replaceUnderscoreLower (d :: rest)

/-- The assignment `Logger.prototype[name] = f`: any earlier member of that name
is replaced. The table holds the generated members; a generated member under
the name of a member written out in the source takes its place for the
callers that go through the table (`Logger.invoke`, `Logger.callLog`). -/
def setProto {Level : Type} (name : String) (f : Generated Level) (s : State Level) :
    State Level :=
  { s with proto := (name, f) :: s.proto.filter (fun p => p.1 != name) }

/-! ## Logger -/

/-- The read `this.level`: the own property, or `Logger.prototype.level`, which
line 46 sets to `levels.TRACE`. -/
def Logger.readLevel {Level : Type} (lv : Levels Level) (this : Logger Level) : Level :=
  match this.level with
  | some l => l
  | none => lv.TRACE

/-- Lines 48-50. `this.level || levels.TRACE` is `this.level`, a Level object being
truthy. -/
def Logger.setLevel {Level : Type} (lv : Levels Level) (this : Logger Level)
    (level : JSValue Level) : Logger Level :=
  { this with level := some (lv.toLevel level (this.readLevel lv)) }

/-- Lines 52-54: `delete this.level`. -/
def Logger.removeLevel {Level : Type} (this : Logger Level) : Logger Level :=
  { this with level := none }

/-- Lines 37-43: `new Logger(name, level)`, the new object having reference `ref`.
An absent `name` is `none`; the empty string is falsy. -/
def Logger.new {Level : Type} (lv : Levels Level) (ref : Nat) (name : Option String)
    (level : JSValue Level) : Logger Level :=
  let category :=
    match name with
    | some n => if n != "" then n else DEFAULT_CATEGORY
    | none => DEFAULT_CATEGORY
  let this : Logger Level := { ref := ref, category := category, level := none }
  if level.truthy then this.setLevel lv level else this

/-- Lines 69-71. -/
def Logger.isLevelEnabled {Level : Type} (lv : Levels Level) (this : Logger Level)
    (otherLevel : Level) : Bool :=
  lv.isLessThanOrEqualTo (this.readLevel lv) otherLevel

/-- Lines 98-102. `getTraceInfo` is named, not called: with `logTracing` set the
location is the function itself. -/
def Logger._log {Level : Type} (now : Nat) (this : Logger Level) (level : Level)
    (data : List (JSValue Level)) (s : State Level) : Logger Level × State Level :=
  let location := if s.logTracing then Location.functionRef "getTraceInfo" else Location.emptyObject
  let loggingEvent : LoggingEvent Level :=
    { startTime := now, categoryName := this.category, data := data, level := level,
      logger := this.ref, location := location }
  (this, emit this "log" loggingEvent s)

/-- Lines 56-67. `arguments[0]` of an empty argument list is `undefined`. -/
def Logger.log {Level : Type} (lv : Levels Level) (now : Nat) (this : Logger Level)
    (arguments : List (JSValue Level)) (s : State Level) :
    Except JSError (Logger Level × State Level) :=
  let logLevel := lv.toLevel (arguments.getD 0 .undefined) lv.INFO
  if !(this.isLevelEnabled lv logLevel) then .ok (this, s)
  else
    let numArgs : Int := (arguments.length : Int) - 1
    match newArray numArgs with
    | .error e => .error e
    | .ok args => .ok (this._log now logLevel (copyArguments arguments 1 numArgs.toNat args) s)

/-- Lines 82-84: the body of the generated `is<Level>Enabled`. -/
def Logger.isEnabledQuery {Level : Type} (lv : Levels Level) (level : Level)
    (this : Logger Level) : Bool :=
  this.isLevelEnabled lv level

/-- Lines 86-95: the body of the generated per-level method. -/
def Logger.levelMethod {Level : Type} (lv : Levels Level) (level : Level) (now : Nat)
    (this : Logger Level) (arguments : List (JSValue Level)) (s : State Level) :
    Except JSError (Logger Level × State Level) :=
  if s.logWritesEnabled && this.isLevelEnabled lv level then
    let numArgs : Int := (arguments.length : Int)
    match newArray numArgs with
    | .error e => .error e
    | .ok args => .ok (this._log now level (copyArguments arguments 0 numArgs.toNat args) s)
  else .ok (this, s)

/-- Lines 78-79: `levelStrLower` and, from it, `levelMethod`. -/
def levelMethodName (levelStr : String) : String :=
  String.mk (replaceUnderscoreLower (toLowerCase levelStr).data)

/-- Line 80 and the key of line 82: `'is' + levelMethod[0].toUpperCase() +
levelMethod.slice(1) + 'Enabled'`, for a name of ASCII characters (on these
`toUpperCase` maps `a` to `z` onto `A` to `Z` and leaves every other
character). Of the empty string `levelMethod[0]` is `undefined`, and
`undefined.toUpperCase()` is a `TypeError`. -/
def isEnabledName (levelMethod : String) : Except JSError String :=
  match levelMethod.data with
  | [] => .error .typeError
  | c :: rest => .ok ("is" ++ String.mk (c.toUpper :: rest) ++ "Enabled")

/-- Lines 75-96. `levels.toLevel(level)` has no fallback: an unresolved name gives
`undefined`, and `undefined.toString()` is a `TypeError`. The query is attached
first, the logging method second. -/
def addLevelMethods {Level : Type} (lv : Levels Level) (level : JSValue Level)
    (s : State Level) : Except JSError (State Level) :=
  match lv.toLevelNoDefault level with
  | none => .error .typeError
  | some level =>
    let levelMethod := levelMethodName (lv.toString level)
    match isEnabledName levelMethod with
    | .error e => .error e
    | .ok isLevelMethod =>
      let s1 := setProto isLevelMethod (Generated.isEnabledQuery level) s
      .ok (setProto levelMethod (Generated.levelMethod level) s1)

/-- Line 73: the seven well-known names, in the order of the source. -/
def wellKnownNames : List String := ["Trace", "Debug", "Info", "Warn", "Error", "Fatal", "Mark"]

/-- Line 73: `[...].forEach(addLevelMethods)`, run once when the module loads. -/
def loadModule {Level : Type} (lv : Levels Level) : Except JSError (State Level) :=
  wellKnownNames.foldlM (fun s n => addLevelMethods lv (.string n) s) (State.fresh Level)

/-- The call `logger[name](...arguments)` of a member attached by `addLevelMethods`;
calling a member that is not there is a `TypeError`. The query returns its
boolean, the logging method returns `undefined`. -/
def Logger.invoke {Level : Type} (lv : Levels Level) (now : Nat) (name : String)
    (this : Logger Level) (arguments : List (JSValue Level)) (s : State Level) :
    Except JSError (JSValue Level × Logger Level × State Level) :=
  match s.proto.lookup name with
  | none => .error .typeError
  | some (.isEnabledQuery level) => .ok (.boolean (this.isEnabledQuery lv level), this, s)
  | some (.levelMethod level) =>
    match Logger.levelMethod lv level now this arguments s with
    | .error e => .error e
    | .ok (this1, s1) => .ok (.undefined, this1, s1)

/-- The names under which the bodies of lines 56-102 reach the logger through
`this`: the calls `this.isLevelEnabled`, `this._log` and `this.emit`, the read
`this.level`, and `log` itself, the entry point of a client. -/
def loggingMembers : List String := ["log", "isLevelEnabled", "level", "_log", "emit"]

/-- The call `logger.log(...arguments)` as a client writes it, resolved through
`Logger.prototype`: a generated member attached under the name `log` (lines 82
and 86) has taken the place of the function of line 56. -/
def Logger.callLog {Level : Type} (lv : Levels Level) (now : Nat) (this : Logger Level)
    (arguments : List (JSValue Level)) (s : State Level) :
    Except JSError (JSValue Level × Logger Level × State Level) :=
  match s.proto.lookup "log" with
  | some _ => Logger.invoke lv now "log" this arguments s
  | none =>
    match Logger.log lv now this arguments s with
    | .error e => .error e
    | .ok (this1, s1) => .ok (.undefined, this1, s1)

/-! ## Process-wide switches -/

/-- Lines 108-110. -/
def disableAllLogWrites {Level : Type} (s : State Level) : State Level :=
  { s with logWritesEnabled := false }

/-- Lines 116-118. -/
def enableAllLogWrites {Level : Type} (s : State Level) : State Level :=
  { s with logWritesEnabled := true }

/-- Lines 124-126. -/
def enableLogTracing {Level : Type} (s : State Level) : State Level :=
  { s with logTracing := true }

/-- Lines 132-134. -/
def disableLogTracing {Level : Type} (s : State Level) : State Level :=
  { s with logTracing := false }

/-! ## Call-site capture -/

/-- A frame of `stack.get()`; each getter can return `null`, here `none`. -/
structure CallSite where
  fileName : Option String
  functionName : Option String
  lineNumber : Option Nat
  columnNumber : Option Nat
  deriving DecidableEq, Repr

/-- The call `name.lastIndexOf("/")` on the characters of `name`: the index of
the last occurrence, or `-1`. -/
def lastIndexOf (c : Char) (cs : List Char) : Int :=
  match cs.reverse.indexOf? c with
  | some i => (cs.length : Int) - 1 - (i : Int)
  | none => -1

/-- Lines 136-146. `stack.get()[8]` of a shorter stack is `undefined`, and calling a
method on `undefined` or `null` is a `TypeError`. -/
def getTraceInfo (stack : List CallSite) : Except JSError TraceInfo :=
  match stack.get? 8 with
  | none => .error .typeError
  | some frame =>
    match frame.fileName with
    | none => .error .typeError
    | some name =>
      .ok { path := name,
            file := String.mk (name.data.drop (lastIndexOf '/' name.data + 1).toNat),
            function := frame.functionName,
            line := frame.lineNumber,
            column := frame.columnNumber }

/-! ## A concrete collaborator, for evaluating the code on examples -/

/-- Modelled from the spec: the canonical names of the seven well-known levels
"Trace, Debug, Info, Warn, Error, Fatal, Mark", in the order the spec lists
them. -/
def canonicalNames : List String :=
  ["TRACE", "DEBUG", "INFO", "WARN", "ERROR", "FATAL", "MARK"]

/-- Modelled from the spec: a collaborator whose Levels are ranks: the seven
well-known levels are 1 to 7 and the custom names `custom` follow from 8. A
name is looked up without regard to case, a Level resolves to itself, nothing
else is recognised. The order is the order of the ranks. -/
def sampleLevels (custom : List String) : Levels Nat :=
  { TRACE := 1
    INFO := 3
    resolve := fun x =>
      match x with
      | .string s =>
        match (canonicalNames ++ custom).indexOf? (String.mk (s.data.map Char.toUpper)) with
        | some i => some (i + 1)
        | none => none
      | .level l => some l
      | _ => none
    isLessThanOrEqualTo := fun a b => decide (a ≤ b)
    toString := fun l => (canonicalNames ++ custom).getD (l - 1) "" }

/-- The module state after `logger.js` was loaded against `sampleLevels []`: the
seven pairs of generated members are in place. -/
def sampleLoaded : State Nat :=
  match loadModule (sampleLevels []) with
  | .ok s => s
  | .error _ => State.fresh Nat

/-- The loaded module after `addLevelMethods("LOG")`, with a custom level of the
canonical name `LOG` (rank 8) registered: its logging method has taken the name
`log`. -/
def sampleLogShadowed : State Nat :=
  match addLevelMethods (sampleLevels ["LOG"]) (.string "LOG") sampleLoaded with
  | .ok s => s
  | .error _ => sampleLoaded

/-- A call stack of nine frames for the examples: eight frames of the runtime,
and at index 8 a frame of `/srv/app/lib/db.js`. -/
def sampleStack : List CallSite :=
  List.replicate 8 ⟨some "/node/events.js", none, some 1, some 1⟩ ++
    [⟨some "/srv/app/lib/db.js", some "connect", some 42, some 7⟩]

/-! ## Observations used to compare runs -/

/-- An event with its `location` blanked. -/
def LoggingEvent.withoutLocation {Level : Type} (e : LoggingEvent Level) : LoggingEvent Level :=
  { e with location := Location.emptyObject }

/-- A state with the trace flag cleared and the `location` of every published
event blanked: what is left to compare between a run with trace capture and a
run without it. -/
def State.withoutTrace {Level : Type} (s : State Level) : State Level :=
  { s with logTracing := false
           published := s.published.map (fun p => { p with event := p.event.withoutLocation }) }

/-! ## The naming rule in the words of the spec -/

/-- A list of characters with its first character in upper case. -/
def capitalize : List Char → List Char
  | [] => []
  | c :: rest => c.toUpper :: rest

/-- A word of ASCII characters only. -/
def isAsciiWord (w : List Char) : Bool := w.all (fun c => c.toNat < 128)

/-- A word that begins with an ASCII letter. -/
def beginsWithLetter : List Char → Bool
  | [] => false
  | c :: _ => c.isAlpha

/-- A canonical name given by its words: the first word, and after it every
other word behind an underscore. -/
def joinWords (first : List Char) (others : List (List Char)) : List Char :=
  first ++ (others.map (fun w => '_' :: w)).flatten

/-- The naming rule as the spec words it, "lower-cased, with any
underscore-separated word boundaries converted to camel-case": every word in
lower case, the first character of every word after the first in upper case,
the underscores dropped. -/
def camelCaseOfWords (first : List Char) (others : List (List Char)) : List Char :=
  first.map Char.toLower ++ (others.map (fun w => capitalize (w.map Char.toLower))).flatten

/-! ## Sequences of calls on a logger -/

/-- The calls a client makes on a logger, each with the time of the call where
an event may be built. -/
inductive LoggerCall (Level : Type) where
  | setLevel (level : JSValue Level)
  | removeLevel
  | log (now : Nat) (arguments : List (JSValue Level))
  | member (now : Nat) (name : String) (arguments : List (JSValue Level))

/-- One call on the logger. A call that throws leaves the logger and the state
as they were: no function of the module writes before it throws. -/
def Logger.call {Level : Type} (lv : Levels Level) (c : LoggerCall Level)
    (ls : Logger Level × State Level) : Logger Level × State Level :=
  match c with
  | .setLevel level => (ls.1.setLevel lv level, ls.2)
  | .removeLevel => (ls.1.removeLevel, ls.2)
  | .log now arguments =>
    match Logger.log lv now ls.1 arguments ls.2 with
    | .ok r => r
    | .error _ => ls
  | .member now name arguments =>
    match Logger.invoke lv now name ls.1 arguments ls.2 with
    | .ok r => r.2
    | .error _ => ls

/-- A sequence of calls, first to last. -/
def Logger.calls {Level : Type} (lv : Levels Level) (cs : List (LoggerCall Level))
    (ls : Logger Level × State Level) : Logger Level × State Level :=
  cs.foldl (fun acc c => Logger.call lv c acc) ls

/-- A Level that the collaborator hands out: its constant `TRACE`, or the Level
some input resolves to. -/
def Levels.produces {Level : Type} (lv : Levels Level) (l : Level) : Prop :=
  l = lv.TRACE ∨ ∃ x : JSValue Level, lv.resolve x = some l

/-- The invariant of the data model: the own level of the logger is absent, or is
a Level handed out by the collaborator. -/
def Logger.levelIsResolved {Level : Type} (lv : Levels Level) (this : Logger Level) : Prop :=
  ∀ l : Level, this.level = some l → lv.produces l

/-! ## Lemmas on the helpers -/

theorem foldl_set_range {α : Type} (g : Nat → α) (l : List α) (k : Nat) (hk : k ≤ l.length) :
    (List.range k).foldl (fun acc i => acc.set i (g i)) l = (List.range k).map g ++ l.drop k := by
  induction k with
  | zero => simp
  | succ k ih =>
    have hk1 : k < l.length := hk
    rw [List.range_succ, List.foldl_append, ih (Nat.le_of_lt hk1)]
    simp only [List.foldl_cons, List.foldl_nil, List.map_append, List.map_cons, List.map_nil]
    have hlen : ((List.range k).map g).length = k := by simp
    rw [List.set_append_right _ _ (by simp), hlen, Nat.sub_self, List.drop_eq_getElem_cons hk1]
    simp [List.set]

theorem copyArguments_all {Level : Type} (l : List (JSValue Level)) :
    copyArguments l 0 l.length (List.replicate l.length .undefined) = l := by
  unfold copyArguments
  rw [foldl_set_range _ _ _ (by simp)]
  simp only [List.drop_replicate, Nat.sub_self, List.replicate_zero, List.append_nil, Nat.add_zero]
  apply List.ext_getElem
  · simp
  · intro i h1 h2
    simp [List.getD_eq_getElem?_getD, List.getElem?_eq_getElem h2]

theorem copyArguments_tail {Level : Type} (a : JSValue Level) (l : List (JSValue Level)) :
    copyArguments (a :: l) 1 l.length (List.replicate l.length .undefined) = l := by
  unfold copyArguments
  rw [foldl_set_range _ _ _ (by simp)]
  simp only [List.drop_replicate, Nat.sub_self, List.replicate_zero, List.append_nil]
  apply List.ext_getElem
  · simp
  · intro i h1 h2
    simp [List.getD_eq_getElem?_getD, List.getElem?_eq_getElem h2]

theorem isLevelEnabled_eq {Level : Type} (lv : Levels Level) (this : Logger Level) (c : Level) :
    this.isLevelEnabled lv c = lv.isLessThanOrEqualTo (this.level.getD lv.TRACE) c := by
  cases h : this.level <;> simp [Logger.isLevelEnabled, Logger.readLevel, h]

theorem toLevel_eq {Level : Type} (lv : Levels Level) (x : JSValue Level) (d : Level) :
    lv.toLevel x d = (lv.resolve x).getD d := by
  cases h : lv.resolve x <;> simp [Levels.toLevel, h]

/-- The location `_log` puts into the event it builds. -/
theorem emitPath_eq {Level : Type} (now : Nat) (this : Logger Level) (level : Level)
    (data : List (JSValue Level)) (s : State Level) :
    this._log now level data s =
      (this, { s with published := s.published ++
          [{ emitter := this.ref, topic := "log",
             event := { startTime := now, categoryName := this.category, data := data,
                        level := level, logger := this.ref,
                        location := if s.logTracing then Location.functionRef "getTraceInfo"
                                    else Location.emptyObject } }] }) := rfl

theorem levelMethod_eq {Level : Type} (lv : Levels Level) (level : Level) (now : Nat)
    (this : Logger Level) (arguments : List (JSValue Level)) (s : State Level) :
    Logger.levelMethod lv level now this arguments s =
      if s.logWritesEnabled && this.isLevelEnabled lv level then
        .ok (this._log now level arguments s)
      else .ok (this, s) := by
  unfold Logger.levelMethod
  split
  · simp only [newArray, Int.toNat_ofNat]
    rw [if_neg (by omega)]
    simp only [copyArguments_all]
  · rfl

theorem log_cons_eq {Level : Type} (lv : Levels Level) (now : Nat) (this : Logger Level)
    (levelLike : JSValue Level) (payload : List (JSValue Level)) (s : State Level) :
    Logger.log lv now this (levelLike :: payload) s =
      if this.isLevelEnabled lv (lv.toLevel levelLike lv.INFO) then
        .ok (this._log now (lv.toLevel levelLike lv.INFO) payload s)
      else .ok (this, s) := by
  unfold Logger.log
  simp only [List.getD_cons_zero, List.length_cons, Nat.cast_add, Nat.cast_one,
    add_sub_cancel_right, newArray, Int.toNat_ofNat]
  cases h : this.isLevelEnabled lv (lv.toLevel levelLike lv.INFO)
  · simp
  · simp only [Bool.not_true, Bool.false_eq_true, if_false, if_true]
    rw [if_neg (by omega)]
    simp only [copyArguments_tail]

theorem log_nil_eq {Level : Type} (lv : Levels Level) (now : Nat) (this : Logger Level)
    (s : State Level) :
    Logger.log lv now this [] s =
      if this.isLevelEnabled lv (lv.toLevel .undefined lv.INFO) then .error .rangeError
      else .ok (this, s) := by
  unfold Logger.log
  cases h : this.isLevelEnabled lv (lv.toLevel .undefined lv.INFO) <;>
    simp [h, newArray]

theorem invoke_levelMethod_eq {Level : Type} (lv : Levels Level) (now : Nat) (name : String)
    (L : Level) (this : Logger Level) (args : List (JSValue Level)) (s : State Level)
    (hgen : s.proto.lookup name = some (Generated.levelMethod L)) :
    Logger.invoke lv now name this args s =
      if s.logWritesEnabled && lv.isLessThanOrEqualTo (this.level.getD lv.TRACE) L then
        .ok (.undefined, this._log now L args s)
      else .ok (.undefined, this, s) := by
  simp only [Logger.invoke, hgen, levelMethod_eq, isLevelEnabled_eq]
  by_cases h : (s.logWritesEnabled && lv.isLessThanOrEqualTo (this.level.getD lv.TRACE) L) = true
  · simp only [h, if_true]
  · simp [h]

theorem log_logWritesEnabled_irrelevant {Level : Type} (lv : Levels Level) (now : Nat)
    (this : Logger Level) (arguments : List (JSValue Level)) (s : State Level) (b : Bool) :
    Logger.log lv now this arguments { s with logWritesEnabled := b } =
      (Logger.log lv now this arguments s).map
        (fun r => (r.1, { r.2 with logWritesEnabled := b })) := by
  simp only [Logger.log]
  split
  · simp [Except.map]
  · split <;> simp [Except.map, Logger._log, emit]

theorem log_congr_logger {Level : Type} (lv : Levels Level) (now : Nat) (a b : Logger Level)
    (arguments : List (JSValue Level)) (s : State Level) (href : a.ref = b.ref)
    (hcat : a.category = b.category) (hlevel : a.readLevel lv = b.readLevel lv) :
    (Logger.log lv now a arguments s).map Prod.snd =
      (Logger.log lv now b arguments s).map Prod.snd := by
  simp only [Logger.log, Logger.isLevelEnabled, hlevel]
  split
  · rfl
  · split
    · rfl
    · simp [Except.map, Logger._log, emit, href, hcat]

theorem invoke_congr_logger {Level : Type} (lv : Levels Level) (now : Nat) (name : String)
    (a b : Logger Level) (arguments : List (JSValue Level)) (s : State Level)
    (href : a.ref = b.ref) (hcat : a.category = b.category)
    (hlevel : a.readLevel lv = b.readLevel lv) :
    (Logger.invoke lv now name a arguments s).map (fun r => (r.1, r.2.2)) =
      (Logger.invoke lv now name b arguments s).map (fun r => (r.1, r.2.2)) := by
  unfold Logger.invoke
  cases hl : s.proto.lookup name with
  | none => rfl
  | some g =>
    cases g with
    | isEnabledQuery level =>
      simp [Except.map, Logger.isEnabledQuery, Logger.isLevelEnabled, hlevel]
    | levelMethod level =>
      simp only [levelMethod_eq, Logger.isLevelEnabled, hlevel]
      by_cases h : (s.logWritesEnabled && lv.isLessThanOrEqualTo (b.readLevel lv) level) = true
      · simp [h, Except.map, Logger._log, emit, href, hcat]
      · simp [h, Except.map]

theorem log_logTracing_frame {Level : Type} (lv : Levels Level) (now : Nat)
    (this : Logger Level) (arguments : List (JSValue Level)) (s : State Level) (b : Bool) :
    (Logger.log lv now this arguments { s with logTracing := b }).map
        (fun r => (r.1, r.2.withoutTrace)) =
      (Logger.log lv now this arguments s).map (fun r => (r.1, r.2.withoutTrace)) := by
  simp only [Logger.log]
  split
  · simp [Except.map, State.withoutTrace]
  · split <;>
      simp [Except.map, State.withoutTrace, Logger._log, emit, LoggingEvent.withoutLocation]

theorem invoke_logTracing_frame {Level : Type} (lv : Levels Level) (now : Nat) (name : String)
    (this : Logger Level) (arguments : List (JSValue Level)) (s : State Level) (b : Bool) :
    (Logger.invoke lv now name this arguments { s with logTracing := b }).map
        (fun r => (r.1, r.2.1, r.2.2.withoutTrace)) =
      (Logger.invoke lv now name this arguments s).map
        (fun r => (r.1, r.2.1, r.2.2.withoutTrace)) := by
  unfold Logger.invoke
  cases hl : s.proto.lookup name with
  | none => simp [hl]
  | some g =>
    cases g with
    | isEnabledQuery level => simp [hl, Except.map, State.withoutTrace]
    | levelMethod level =>
      simp only [hl, levelMethod_eq]
      by_cases h : (s.logWritesEnabled && this.isLevelEnabled lv level) = true
      · simp [h, Except.map, State.withoutTrace, Logger._log, emit, LoggingEvent.withoutLocation]
      · simp [h, Except.map, State.withoutTrace]

theorem log_result {Level : Type} (lv : Levels Level) (now : Nat) (this : Logger Level)
    (arguments : List (JSValue Level)) (s : State Level)
    (r : Logger Level × State Level) (hr : Logger.log lv now this arguments s = .ok r) :
    r = (this, s) ∨ ∃ (level : Level) (data : List (JSValue Level)),
      r = this._log now level data s := by
  cases arguments with
  | nil =>
    rw [log_nil_eq] at hr
    split at hr
    · cases hr
    · cases hr
      exact Or.inl rfl
  | cons a l =>
    rw [log_cons_eq] at hr
    split at hr
    · cases hr
      exact Or.inr ⟨_, _, rfl⟩
    · cases hr
      exact Or.inl rfl

theorem invoke_result {Level : Type} (lv : Levels Level) (now : Nat) (name : String)
    (this : Logger Level) (arguments : List (JSValue Level)) (s : State Level)
    (r : JSValue Level × Logger Level × State Level)
    (hr : Logger.invoke lv now name this arguments s = .ok r) :
    r.2 = (this, s) ∨ ∃ (level : Level) (data : List (JSValue Level)),
      r.2 = this._log now level data s := by
  unfold Logger.invoke at hr
  cases hl : s.proto.lookup name with
  | none => simp [hl] at hr
  | some g =>
    cases g with
    | isEnabledQuery level =>
      simp only [hl] at hr
      cases hr
      exact Or.inl rfl
    | levelMethod level =>
      simp only [hl, levelMethod_eq] at hr
      by_cases h : (s.logWritesEnabled && this.isLevelEnabled lv level) = true
      · simp only [h, if_true] at hr
        cases hr
        exact Or.inr ⟨_, _, rfl⟩
      · simp only [h] at hr
        cases hr
        exact Or.inl rfl

theorem lookup_filter_ne {Level : Type} (name k : String) (l : List (String × Generated Level))
    (h : k ≠ name) : (l.filter (fun p => p.1 != name)).lookup k = l.lookup k := by
  induction l with
  | nil => rfl
  | cons p l ih =>
    obtain ⟨a, g⟩ := p
    by_cases ha : a = name
    · subst ha
      have hka : (k == a) = false := by simpa using h
      simp [List.filter, List.lookup, hka, ih]
    · have hne : (a != name) = true := by simpa using ha
      simp only [List.filter, hne, List.lookup, ih]

theorem lookup_setProto_self {Level : Type} (name : String) (f : Generated Level)
    (s : State Level) : (setProto name f s).proto.lookup name = some f := by
  simp [setProto, List.lookup]

theorem lookup_setProto_of_ne {Level : Type} (name k : String) (f : Generated Level)
    (s : State Level) (h : k ≠ name) :
    (setProto name f s).proto.lookup k = s.proto.lookup k := by
  have hk : (k == name) = false := by simpa using h
  simp only [setProto, List.lookup, hk]
  exact lookup_filter_ne name k s.proto h

theorem isEnabledName_ne (m q : String) (h : isEnabledName m = .ok q) : q ≠ m := by
  unfold isEnabledName at h
  cases hm : m.data with
  | nil => simp [hm] at h
  | cons c rest =>
    simp only [hm] at h
    cases h
    intro heq
    have hlen := congrArg String.length heq
    have hml : m.length = rest.length + 1 := by
      show m.data.length = rest.length + 1
      rw [hm]
      rfl
    simp only [String.length_append, hml] at hlen
    have h1 : ("is" : String).length = 2 := rfl
    have h2 : ("Enabled" : String).length = 7 := rfl
    have h3 : (String.mk (c.toUpper :: rest)).length = rest.length + 1 := rfl
    omega

theorem addLevelMethods_lookup {Level : Type} (lv : Levels Level) (x : JSValue Level)
    (L : Level) (q : String) (s0 s : State Level) (hx : lv.resolve x = some L)
    (hq : isEnabledName (levelMethodName (lv.toString L)) = .ok q)
    (hadd : addLevelMethods lv x s0 = .ok s) :
    s.proto.lookup q = some (Generated.isEnabledQuery L) ∧
    s.proto.lookup (levelMethodName (lv.toString L)) = some (Generated.levelMethod L) ∧
    s.logWritesEnabled = s0.logWritesEnabled ∧ s.logTracing = s0.logTracing ∧
    s.published = s0.published := by
  simp only [addLevelMethods, Levels.toLevelNoDefault, hx, hq] at hadd
  cases hadd
  refine ⟨?_, lookup_setProto_self _ _ _, rfl, rfl, rfl⟩
  rw [lookup_setProto_of_ne _ _ _ _ (isEnabledName_ne _ _ hq)]
  exact lookup_setProto_self _ _ _

/-! ## Threshold and filtering -/

/-- C1: for every logger and every candidate level `c`, `isLevelEnabled(c)` is
true exactly when the effective threshold (the logger's own level, or TRACE
when it has none) is less than or equal to `c`. In particular, for `L1 <= L2`,
a logger whose threshold was set to `L1` enables `L2`; and a logger whose
threshold was set to `L2` enables `L1` only if also `L2 <= L1`, hence, the
order being antisymmetric, only if `L1 = L2`. -/
theorem isLevelEnabled_iff_threshold {Level : Type} (lv : Levels Level) (this : Logger Level)
    (c : Level) :
    (this.isLevelEnabled lv c = true ↔
        lv.isLessThanOrEqualTo (this.level.getD lv.TRACE) c = true) ∧
    (∀ (x : JSValue Level) (L1 L2 : Level), lv.resolve x = some L1 →
        lv.isLessThanOrEqualTo L1 L2 = true →
        (this.setLevel lv x).isLevelEnabled lv L2 = true) ∧
    (∀ (x : JSValue Level) (L1 L2 : Level), lv.resolve x = some L2 →
        lv.isLessThanOrEqualTo L1 L2 = true →
        (this.setLevel lv x).isLevelEnabled lv L1 = true →
        lv.isLessThanOrEqualTo L2 L1 = true ∧
        ((∀ a b, lv.isLessThanOrEqualTo a b = true → lv.isLessThanOrEqualTo b a = true → a = b) →
          L1 = L2)) := by
  refine ⟨?_, ?_, ?_⟩
  · rw [isLevelEnabled_eq]
  · intro x L1 L2 hx hle
    simp [Logger.isLevelEnabled, Logger.readLevel, Logger.setLevel, Levels.toLevel, hx, hle]
  · intro x L1 L2 hx hle hen
    have h21 : lv.isLessThanOrEqualTo L2 L1 = true := by
      simpa [Logger.isLevelEnabled, Logger.readLevel, Logger.setLevel, Levels.toLevel, hx] using hen
    exact ⟨h21, fun hanti => hanti L1 L2 hle h21⟩

/-- C1, at an example: with threshold DEBUG (rank 2) the level INFO (rank 3) is
enabled; with threshold INFO the level DEBUG is not, and the only level below
or at INFO that INFO enables is INFO itself. -/
theorem isLevelEnabled_iff_threshold_witness :
    (Logger.setLevel (sampleLevels []) ⟨0, "app", none⟩ (.string "debug")).isLevelEnabled
        (sampleLevels []) 3 = true ∧
    (Logger.setLevel (sampleLevels []) ⟨0, "app", none⟩ (.string "info")).isLevelEnabled
        (sampleLevels []) 2 = false ∧
    ((3 : Nat) = 3) :=
  ⟨(isLevelEnabled_iff_threshold (sampleLevels []) ⟨0, "app", none⟩ 3).2.1
      (.string "debug") 2 3 (by decide) (by decide),
    by decide,
    ((isLevelEnabled_iff_threshold (sampleLevels []) ⟨0, "app", none⟩ 3).2.2
      (.string "info") 3 3 (by decide) (by decide) (by decide)).2
      (fun a b hab hba => Nat.le_antisymm (of_decide_eq_true hab) (of_decide_eq_true hba))⟩

/-- C2: for every level `L`, every logger, every argument list `args` and every
state in which `name` is the generated per-level method of `L` and writes are
enabled: when the threshold is `<= L` the call emits exactly one event, on the
topic "log", with the logger's category, level `L` and data `args`; otherwise
it emits nothing and changes neither the logger nor the state. -/
theorem levelMethod_emits_iff_enabled {Level : Type} (lv : Levels Level) (now : Nat)
    (name : String) (L : Level) (this : Logger Level) (args : List (JSValue Level))
    (s : State Level) (hgen : s.proto.lookup name = some (Generated.levelMethod L))
    (hw : s.logWritesEnabled = true) :
    (lv.isLessThanOrEqualTo (this.level.getD lv.TRACE) L = true →
      ∃ location : Location,
        Logger.invoke lv now name this args s =
          .ok (.undefined, this,
            { s with published := s.published ++
                [{ emitter := this.ref, topic := "log",
                   event := { startTime := now, categoryName := this.category, data := args,
                              level := L, logger := this.ref, location := location } }] })) ∧
    (lv.isLessThanOrEqualTo (this.level.getD lv.TRACE) L = false →
      Logger.invoke lv now name this args s = .ok (.undefined, this, s)) := by
  constructor
  · intro hle
    refine ⟨if s.logTracing then Location.functionRef "getTraceInfo" else Location.emptyObject, ?_⟩
    simp [invoke_levelMethod_eq lv now name L this args s hgen, hw, hle, emitPath_eq]
  · intro hle
    simp [invoke_levelMethod_eq lv now name L this args s hgen, hw, hle]

/-- C2, at the example of the spec: on the loaded module, a logger of the default
category with threshold INFO emits nothing on `debug("a")`, and on
`warn("a", 1)` exactly one event with category "[default]", level WARN (rank 4)
and data `["a", 1]`. -/
theorem levelMethod_emits_iff_enabled_witness :
    loadModule (sampleLevels []) = .ok sampleLoaded ∧
    Logger.new (sampleLevels []) 0 none (.string "INFO") = ⟨0, "[default]", some 3⟩ ∧
    Logger.invoke (sampleLevels []) 9 "debug" ⟨0, "[default]", some 3⟩ [.string "a"] sampleLoaded =
      .ok (.undefined, ⟨0, "[default]", some 3⟩, sampleLoaded) ∧
    (∃ location : Location,
      Logger.invoke (sampleLevels []) 9 "warn" ⟨0, "[default]", some 3⟩
          [.string "a", .number 1] sampleLoaded =
        .ok (.undefined, ⟨0, "[default]", some 3⟩,
          { sampleLoaded with published := sampleLoaded.published ++
              [{ emitter := 0, topic := "log",
                 event := { startTime := 9, categoryName := "[default]",
                            data := [.string "a", .number 1], level := 4, logger := 0,
                            location := location } }] })) :=
  ⟨rfl, rfl,
    (levelMethod_emits_iff_enabled (sampleLevels []) 9 "debug" 2 ⟨0, "[default]", some 3⟩
      [.string "a"] sampleLoaded (by decide) (by decide)).2 (by decide),
    (levelMethod_emits_iff_enabled (sampleLevels []) 9 "warn" 4 ⟨0, "[default]", some 3⟩
      [.string "a", .number 1] sampleLoaded (by decide) (by decide)).1 (by decide)⟩

/-- C3: for every logger and every call `log(levelLike, p1, ..., pn)`, `n >= 0`:
the level is the one `levelLike` resolves to, or INFO when it does not resolve;
when the threshold is not `<=` that level nothing is emitted and neither the
logger nor the state changes; otherwise exactly one event is emitted, whose
level is the resolved level and whose data is `[p1, ..., pn]` in call order. -/
theorem log_resolves_filters_emits {Level : Type} (lv : Levels Level) (now : Nat)
    (this : Logger Level) (levelLike : JSValue Level) (payload : List (JSValue Level))
    (s : State Level) :
    (lv.isLessThanOrEqualTo (this.level.getD lv.TRACE)
        ((lv.resolve levelLike).getD lv.INFO) = false →
      Logger.log lv now this (levelLike :: payload) s = .ok (this, s)) ∧
    (lv.isLessThanOrEqualTo (this.level.getD lv.TRACE)
        ((lv.resolve levelLike).getD lv.INFO) = true →
      ∃ location : Location,
        Logger.log lv now this (levelLike :: payload) s =
          .ok (this,
            { s with published := s.published ++
                [{ emitter := this.ref, topic := "log",
                   event := { startTime := now, categoryName := this.category, data := payload,
                              level := (lv.resolve levelLike).getD lv.INFO, logger := this.ref,
                              location := location } }] })) := by
  constructor
  · intro hle
    simp [log_cons_eq, toLevel_eq, isLevelEnabled_eq, hle]
  · intro hle
    refine ⟨if s.logTracing then Location.functionRef "getTraceInfo" else Location.emptyObject, ?_⟩
    simp [log_cons_eq, toLevel_eq, isLevelEnabled_eq, hle, emitPath_eq]

/-- C3, at examples: with threshold WARN (rank 4), `log("debug", "x")` emits
nothing; `log("error", "x", null)` emits one event of level ERROR (rank 5) with
data `["x", null]`; and `log(42, "x")`, whose level is not recognised, is
filtered as INFO, while on a logger without a level of its own it emits one
event of level INFO (rank 3) with data `["x"]`. -/
theorem log_resolves_filters_emits_witness :
    Logger.log (sampleLevels []) 5 ⟨1, "app", some 4⟩ [.string "debug", .string "x"] sampleLoaded =
      .ok (⟨1, "app", some 4⟩, sampleLoaded) ∧
    (∃ location : Location,
      Logger.log (sampleLevels []) 5 ⟨1, "app", some 4⟩ [.string "error", .string "x", .null]
          sampleLoaded =
        .ok (⟨1, "app", some 4⟩,
          { sampleLoaded with published := sampleLoaded.published ++
              [{ emitter := 1, topic := "log",
                 event := { startTime := 5, categoryName := "app", data := [.string "x", .null],
                            level := 5, logger := 1, location := location } }] })) ∧
    Logger.log (sampleLevels []) 5 ⟨1, "app", some 4⟩ [.number 42, .string "x"] sampleLoaded =
      .ok (⟨1, "app", some 4⟩, sampleLoaded) ∧
    (∃ location : Location,
      Logger.log (sampleLevels []) 5 ⟨1, "app", none⟩ [.number 42, .string "x"] sampleLoaded =
        .ok (⟨1, "app", none⟩,
          { sampleLoaded with published := sampleLoaded.published ++
              [{ emitter := 1, topic := "log",
                 event := { startTime := 5, categoryName := "app", data := [.string "x"],
                            level := 3, logger := 1, location := location } }] })) :=
  ⟨(log_resolves_filters_emits (sampleLevels []) 5 ⟨1, "app", some 4⟩ (.string "debug")
      [.string "x"] sampleLoaded).1 (by decide),
    (log_resolves_filters_emits (sampleLevels []) 5 ⟨1, "app", some 4⟩ (.string "error")
      [.string "x", .null] sampleLoaded).2 (by decide),
    (log_resolves_filters_emits (sampleLevels []) 5 ⟨1, "app", some 4⟩ (.number 42)
      [.string "x"] sampleLoaded).1 (by decide),
    (log_resolves_filters_emits (sampleLevels []) 5 ⟨1, "app", none⟩ (.number 42)
      [.string "x"] sampleLoaded).2 (by decide)⟩

/-! ## The write-enable switch -/

/-- C4: after `disableAllLogWrites()` a generated per-level method emits nothing,
whatever the logger's threshold, and leaves logger and state as they are, while
`log(L, ...)` still emits exactly one event when the threshold is `<=` the
resolved level; after `enableAllLogWrites()` the per-level method emits again
when the threshold is `<= L`. The write-enable flag never affects `log`: the
call gives the same result, and the same events, whatever the flag is. -/
theorem disableAllLogWrites_gates_only_levelMethods {Level : Type} (lv : Levels Level)
    (now : Nat) (this : Logger Level) (s : State Level) :
    (∀ (name : String) (L : Level) (args : List (JSValue Level)),
      s.proto.lookup name = some (Generated.levelMethod L) →
      Logger.invoke lv now name this args (disableAllLogWrites s) =
        .ok (.undefined, this, disableAllLogWrites s)) ∧
    (∀ (levelLike : JSValue Level) (payload : List (JSValue Level)),
      lv.isLessThanOrEqualTo (this.level.getD lv.TRACE)
          ((lv.resolve levelLike).getD lv.INFO) = true →
      ∃ location : Location,
        Logger.log lv now this (levelLike :: payload) (disableAllLogWrites s) =
          .ok (this,
            { disableAllLogWrites s with published := s.published ++
                [{ emitter := this.ref, topic := "log",
                   event := { startTime := now, categoryName := this.category, data := payload,
                              level := (lv.resolve levelLike).getD lv.INFO, logger := this.ref,
                              location := location } }] })) ∧
    (∀ (name : String) (L : Level) (args : List (JSValue Level)),
      s.proto.lookup name = some (Generated.levelMethod L) →
      lv.isLessThanOrEqualTo (this.level.getD lv.TRACE) L = true →
      ∃ location : Location,
        Logger.invoke lv now name this args (enableAllLogWrites (disableAllLogWrites s)) =
          .ok (.undefined, this,
            { enableAllLogWrites (disableAllLogWrites s) with published := s.published ++
                [{ emitter := this.ref, topic := "log",
                   event := { startTime := now, categoryName := this.category, data := args,
                              level := L, logger := this.ref, location := location } }] })) ∧
    (∀ (arguments : List (JSValue Level)) (b : Bool),
      Logger.log lv now this arguments { s with logWritesEnabled := b } =
        (Logger.log lv now this arguments s).map
          (fun r => (r.1, { r.2 with logWritesEnabled := b }))) := by
  refine ⟨?_, ?_, ?_, ?_⟩
  · intro name L args hgen
    have hgen2 : (disableAllLogWrites s).proto.lookup name = some (Generated.levelMethod L) := hgen
    have hoff : (disableAllLogWrites s).logWritesEnabled = false := rfl
    simp [invoke_levelMethod_eq lv now name L this args _ hgen2, hoff]
  · intro levelLike payload hle
    refine ⟨if s.logTracing then Location.functionRef "getTraceInfo" else Location.emptyObject, ?_⟩
    simp [log_cons_eq, toLevel_eq, isLevelEnabled_eq, hle, emitPath_eq, disableAllLogWrites]
  · intro name L args hgen hle
    have hgen2 : (enableAllLogWrites (disableAllLogWrites s)).proto.lookup name =
        some (Generated.levelMethod L) := hgen
    have hon : (enableAllLogWrites (disableAllLogWrites s)).logWritesEnabled = true := rfl
    refine ⟨if s.logTracing then Location.functionRef "getTraceInfo" else Location.emptyObject, ?_⟩
    rw [invoke_levelMethod_eq lv now name L this args _ hgen2, hon, hle, emitPath_eq]
    simp [enableAllLogWrites, disableAllLogWrites]
  · intro arguments b
    exact log_logWritesEnabled_irrelevant lv now this arguments s b

/-- C4, at an example: on the loaded module with writes disabled, a logger
without a level of its own emits nothing on `error("x")`, but `log("error",
"x")` emits one event; once writes are enabled again `error("x")` emits one
event. -/
theorem disableAllLogWrites_gates_only_levelMethods_witness :
    Logger.invoke (sampleLevels []) 3 "error" ⟨2, "db", none⟩ [.string "x"]
        (disableAllLogWrites sampleLoaded) =
      .ok (.undefined, ⟨2, "db", none⟩, disableAllLogWrites sampleLoaded) ∧
    (∃ location : Location,
      Logger.log (sampleLevels []) 3 ⟨2, "db", none⟩ [.string "error", .string "x"]
          (disableAllLogWrites sampleLoaded) =
        .ok (⟨2, "db", none⟩,
          { disableAllLogWrites sampleLoaded with published := sampleLoaded.published ++
              [{ emitter := 2, topic := "log",
                 event := { startTime := 3, categoryName := "db", data := [.string "x"],
                            level := 5, logger := 2, location := location } }] })) ∧
    (∃ location : Location,
      Logger.invoke (sampleLevels []) 3 "error" ⟨2, "db", none⟩ [.string "x"]
          (enableAllLogWrites (disableAllLogWrites sampleLoaded)) =
        .ok (.undefined, ⟨2, "db", none⟩,
          { enableAllLogWrites (disableAllLogWrites sampleLoaded) with
            published := sampleLoaded.published ++
              [{ emitter := 2, topic := "log",
                 event := { startTime := 3, categoryName := "db", data := [.string "x"],
                            level := 5, logger := 2, location := location } }] })) :=
  ⟨(disableAllLogWrites_gates_only_levelMethods (sampleLevels []) 3 ⟨2, "db", none⟩
      sampleLoaded).1 "error" 5 [.string "x"] (by decide),
    (disableAllLogWrites_gates_only_levelMethods (sampleLevels []) 3 ⟨2, "db", none⟩
      sampleLoaded).2.1 (.string "error") [.string "x"] (by decide),
    (disableAllLogWrites_gates_only_levelMethods (sampleLevels []) 3 ⟨2, "db", none⟩
      sampleLoaded).2.2.1 "error" 5 [.string "x"] (by decide) (by decide)⟩

/-! ## Setting and removing the threshold -/

/-- C5: for every logger, with a level of its own or without one, and every input
the resolver does not recognise (an absent input included), `setLevel(input)`
returns normally and leaves the effective threshold as it was:
`isLevelEnabled(c)` answers the same for every level `c` before and after. -/
theorem setLevel_unrecognised_keeps_threshold {Level : Type} (lv : Levels Level)
    (this : Logger Level) (input : JSValue Level) (hinput : lv.resolve input = none) :
    (this.setLevel lv input).readLevel lv = this.readLevel lv ∧
    (∀ c : Level, (this.setLevel lv input).isLevelEnabled lv c = this.isLevelEnabled lv c) ∧
    (this.removeLevel.setLevel lv input).readLevel lv = this.removeLevel.readLevel lv ∧
    (∀ c : Level, (this.removeLevel.setLevel lv input).isLevelEnabled lv c =
      this.removeLevel.isLevelEnabled lv c) := by
  have key : ∀ a : Logger Level, (a.setLevel lv input).readLevel lv = a.readLevel lv := by
    intro a
    simp [Logger.setLevel, Logger.readLevel, Levels.toLevel, hinput]
  refine ⟨key this, ?_, key this.removeLevel, ?_⟩
  · intro c
    simp only [Logger.isLevelEnabled, key]
  · intro c
    simp only [Logger.isLevelEnabled, key]

/-- C5, at examples: a logger with threshold WARN (rank 4) keeps it through
`setLevel()` with no input, and a logger without a level of its own still
reads TRACE (rank 1) after `setLevel("nonsense")`. -/
theorem setLevel_unrecognised_keeps_threshold_witness :
    (Logger.setLevel (sampleLevels []) ⟨0, "app", some 4⟩ .undefined).readLevel (sampleLevels []) = 4 ∧
    (Logger.setLevel (sampleLevels []) ⟨0, "app", none⟩ (.string "nonsense")).readLevel
        (sampleLevels []) = 1 :=
  ⟨(setLevel_unrecognised_keeps_threshold (sampleLevels []) ⟨0, "app", some 4⟩ .undefined
      (by decide)).1,
    (setLevel_unrecognised_keeps_threshold (sampleLevels []) ⟨0, "app", none⟩ (.string "nonsense")
      (by decide)).1⟩

/-- C6: for every logger, after `removeLevel()` it behaves as the same logger
after `setLevel(x)` with `x` resolving to TRACE: `isLevelEnabled(c)` is
`TRACE <= c` for every `c` (so TRACE itself is enabled when the order is
reflexive at TRACE), and `log` and every generated member return the same value,
raise the same error and leave the same state, published events included. -/
theorem removeLevel_behaves_as_TRACE {Level : Type} (lv : Levels Level) (now : Nat)
    (this : Logger Level) (x : JSValue Level) (hx : lv.resolve x = some lv.TRACE)
    (s : State Level) :
    (∀ c : Level, this.removeLevel.isLevelEnabled lv c = lv.isLessThanOrEqualTo lv.TRACE c) ∧
    (∀ c : Level, this.removeLevel.isLevelEnabled lv c = (this.setLevel lv x).isLevelEnabled lv c) ∧
    (∀ arguments : List (JSValue Level),
      (Logger.log lv now this.removeLevel arguments s).map Prod.snd =
        (Logger.log lv now (this.setLevel lv x) arguments s).map Prod.snd) ∧
    (∀ (name : String) (arguments : List (JSValue Level)),
      (Logger.invoke lv now name this.removeLevel arguments s).map (fun r => (r.1, r.2.2)) =
        (Logger.invoke lv now name (this.setLevel lv x) arguments s).map
          (fun r => (r.1, r.2.2))) := by
  have hlevel : this.removeLevel.readLevel lv = (this.setLevel lv x).readLevel lv := by
    simp [Logger.removeLevel, Logger.setLevel, Logger.readLevel, Levels.toLevel, hx]
  refine ⟨?_, ?_, ?_, ?_⟩
  · intro c
    rfl
  · intro c
    simp only [Logger.isLevelEnabled, hlevel]
  · intro arguments
    exact log_congr_logger lv now _ _ arguments s rfl rfl hlevel
  · intro name arguments
    exact invoke_congr_logger lv now name _ _ arguments s rfl rfl hlevel

/-- C6, at an example: a logger that had threshold ERROR (rank 5) enables TRACE
(rank 1) after `removeLevel()`, as it does after `setLevel("trace")`. -/
theorem removeLevel_behaves_as_TRACE_witness :
    (Logger.removeLevel (⟨4, "net", some 5⟩ : Logger Nat)).isLevelEnabled (sampleLevels []) 1 = true ∧
    (Logger.removeLevel (⟨4, "net", some 5⟩ : Logger Nat)).isLevelEnabled (sampleLevels []) 1 =
      (Logger.setLevel (sampleLevels []) ⟨4, "net", some 5⟩ (.string "trace")).isLevelEnabled
        (sampleLevels []) 1 :=
  ⟨((removeLevel_behaves_as_TRACE (sampleLevels []) 0 ⟨4, "net", some 5⟩ (.string "trace")
      (by decide) sampleLoaded).1 1).trans (by decide),
    (removeLevel_behaves_as_TRACE (sampleLevels []) 0 ⟨4, "net", some 5⟩ (.string "trace")
      (by decide) sampleLoaded).2.1 1⟩

/-! ## Trace capture -/

/-- C7 (the code departs from the claim): with trace capture enabled, the event
that the emit path publishes carries as `location` the function `getTraceInfo`
itself, which line 99 names without calling it; this is no call-site
descriptor, whatever the call stack is. The same is seen on
`log("info", "x")` and on `warn("x")` of the loaded module. -/
theorem location_with_tracing_is_the_function :
    (∀ (Level : Type) (now : Nat) (this : Logger Level) (level : Level)
        (data : List (JSValue Level)) (s : State Level),
      (this._log now level data (enableLogTracing s)).2.published =
        s.published ++
          [{ emitter := this.ref, topic := "log",
             event := { startTime := now, categoryName := this.category, data := data,
                        level := level, logger := this.ref,
                        location := Location.functionRef "getTraceInfo" } }]) ∧
    (∀ t : TraceInfo, Location.functionRef "getTraceInfo" ≠ Location.traceInfo t) ∧
    Logger.log (sampleLevels []) 1 ⟨0, "[default]", none⟩ [.string "info", .string "x"]
        (enableLogTracing sampleLoaded) =
      .ok (⟨0, "[default]", none⟩,
        { enableLogTracing sampleLoaded with published :=
            [{ emitter := 0, topic := "log",
               event := { startTime := 1, categoryName := "[default]", data := [.string "x"],
                          level := 3, logger := 0,
                          location := Location.functionRef "getTraceInfo" } }] }) ∧
    Logger.invoke (sampleLevels []) 1 "warn" ⟨0, "[default]", none⟩ [.string "x"]
        (enableLogTracing sampleLoaded) =
      .ok (.undefined, ⟨0, "[default]", none⟩,
        { enableLogTracing sampleLoaded with published :=
            [{ emitter := 0, topic := "log",
               event := { startTime := 1, categoryName := "[default]", data := [.string "x"],
                          level := 4, logger := 0,
                          location := Location.functionRef "getTraceInfo" } }] }) := by
  refine ⟨?_, ?_, rfl, rfl⟩
  · intro Level now this level data s
    rfl
  · intro t h
    cases h

/-- C8: with trace capture disabled (as in the initial state and after
`disableLogTracing()`), every event that `log` or a generated member adds to
the published ones has the empty location; and the trace flag affects nothing
but `location`: run with the flag set and with the flag cleared, the same call
returns the same value or raises the same error, and leaves states that agree
in everything but the flag and the locations, so in the number of events and in
their categoryName, level, data and logger. -/
theorem logTracing_affects_only_location {Level : Type} (lv : Levels Level) (now : Nat)
    (this : Logger Level) (s : State Level) :
    (State.fresh Level).logTracing = false ∧ (disableLogTracing s).logTracing = false ∧
    (s.logTracing = false →
      ∀ (arguments : List (JSValue Level)) (r : Logger Level × State Level),
        Logger.log lv now this arguments s = .ok r →
        ∀ p ∈ r.2.published, p ∈ s.published ∨ p.event.location = Location.emptyObject) ∧
    (s.logTracing = false →
      ∀ (name : String) (arguments : List (JSValue Level))
        (r : JSValue Level × Logger Level × State Level),
        Logger.invoke lv now name this arguments s = .ok r →
        ∀ p ∈ r.2.2.published, p ∈ s.published ∨ p.event.location = Location.emptyObject) ∧
    (∀ arguments : List (JSValue Level),
      (Logger.log lv now this arguments (enableLogTracing s)).map
          (fun r => (r.1, r.2.withoutTrace)) =
        (Logger.log lv now this arguments (disableLogTracing s)).map
          (fun r => (r.1, r.2.withoutTrace))) ∧
    (∀ (name : String) (arguments : List (JSValue Level)),
      (Logger.invoke lv now name this arguments (enableLogTracing s)).map
          (fun r => (r.1, r.2.1, r.2.2.withoutTrace)) =
        (Logger.invoke lv now name this arguments (disableLogTracing s)).map
          (fun r => (r.1, r.2.1, r.2.2.withoutTrace))) := by
  have hemit : s.logTracing = false → ∀ (level : Level) (data : List (JSValue Level)),
      ∀ p ∈ (this._log now level data s).2.published,
        p ∈ s.published ∨ p.event.location = Location.emptyObject := by
    intro hoff level data p hp
    rw [emitPath_eq, hoff] at hp
    simp only [List.mem_append, List.mem_singleton] at hp
    rcases hp with hp | hp
    · exact Or.inl hp
    · right
      rw [hp]
      rfl
  refine ⟨rfl, rfl, ?_, ?_, ?_, ?_⟩
  · intro hoff arguments r hr p hp
    rcases log_result lv now this arguments s r hr with h | ⟨level, data, h⟩
    · rw [h] at hp
      exact Or.inl hp
    · rw [h] at hp
      exact hemit hoff level data p hp
  · intro hoff name arguments r hr p hp
    rcases invoke_result lv now name this arguments s r hr with h | ⟨level, data, h⟩
    · rw [h] at hp
      exact Or.inl hp
    · rw [h] at hp
      exact hemit hoff level data p hp
  · intro arguments
    exact (log_logTracing_frame lv now this arguments s true).trans
      (log_logTracing_frame lv now this arguments s false).symm
  · intro name arguments
    exact (invoke_logTracing_frame lv now name this arguments s true).trans
      (invoke_logTracing_frame lv now name this arguments s false).symm

/-- C8, at an example: on the loaded module, where trace capture is off, the one
event that `log("warn", "x")` publishes has the empty location. -/
theorem logTracing_affects_only_location_witness :
    Logger.log (sampleLevels []) 2 ⟨0, "[default]", none⟩ [.string "warn", .string "x"]
        sampleLoaded =
      .ok (⟨0, "[default]", none⟩,
        { sampleLoaded with published :=
            [{ emitter := 0, topic := "log",
               event := { startTime := 2, categoryName := "[default]", data := [.string "x"],
                          level := 4, logger := 0, location := Location.emptyObject } }] }) ∧
    ((⟨0, "log", ⟨2, "[default]", [.string "x"], 4, 0, Location.emptyObject⟩⟩ : Publication Nat) ∈
        sampleLoaded.published ∨
      (⟨2, "[default]", [.string "x"], 4, 0, Location.emptyObject⟩ :
        LoggingEvent Nat).location = Location.emptyObject) :=
  ⟨rfl,
    (logTracing_affects_only_location (sampleLevels []) 2 ⟨0, "[default]", none⟩
      sampleLoaded).2.2.1 rfl [.string "warn", .string "x"] _ rfl
      ⟨0, "log", ⟨2, "[default]", [.string "x"], 4, 0, Location.emptyObject⟩⟩
      (List.mem_singleton.mpr rfl)⟩

/-! ## Robustness of `log` -/

/-- C9 (the code departs from the claim): `log()` called with no argument at all
raises a `RangeError` whenever the threshold lets the fallback level INFO
through: `numArgs` is then `-1` and `new Array(-1)` throws. It does so on a
logger of the loaded module that has no level of its own. With at least the
level argument given, `log` never raises: it returns having emitted nothing, or
having emitted exactly one event whose data is the payload, which may be
empty. -/
theorem log_without_arguments_raises :
    Logger.log (sampleLevels []) 0 ⟨0, "[default]", none⟩ [] sampleLoaded =
      .error .rangeError ∧
    (∀ (Level : Type) (lv : Levels Level) (now : Nat) (this : Logger Level) (s : State Level),
      Logger.log lv now this [] s =
        if lv.isLessThanOrEqualTo (this.level.getD lv.TRACE)
            ((lv.resolve .undefined).getD lv.INFO) then .error .rangeError
        else .ok (this, s)) ∧
    (∀ (Level : Type) (lv : Levels Level) (now : Nat) (this : Logger Level)
        (levelLike : JSValue Level) (payload : List (JSValue Level)) (s : State Level),
      Logger.log lv now this (levelLike :: payload) s = .ok (this, s) ∨
      ∃ e : LoggingEvent Level, e.data = payload ∧
        Logger.log lv now this (levelLike :: payload) s =
          .ok (this, { s with published := s.published ++
                [{ emitter := this.ref, topic := "log", event := e }] })) := by
  refine ⟨rfl, ?_, ?_⟩
  · intro Level lv now this s
    rw [log_nil_eq, isLevelEnabled_eq, toLevel_eq]
  · intro Level lv now this levelLike payload s
    rw [log_cons_eq]
    cases this.isLevelEnabled lv (lv.toLevel levelLike lv.INFO)
    · exact Or.inl rfl
    · exact Or.inr ⟨_, rfl, rfl⟩

/-! ## Generated members -/

theorem callLog_eq_log {Level : Type} (lv : Levels Level) (now : Nat) (this : Logger Level)
    (arguments : List (JSValue Level)) (s : State Level)
    (h : s.proto.lookup "log" = none) :
    Logger.callLog lv now this arguments s =
      match Logger.log lv now this arguments s with
      | .error e => .error e
      | .ok (this1, s1) => .ok (.undefined, this1, s1) := by
  simp only [Logger.callLog, h]

/-- C10 (as stated, refuted): with a custom level of the canonical name `LOG`
(rank 8) registered, `addLevelMethods("LOG")` attaches its logging method under
the name `log`, in place of the function of line 56. The generated operation
called with `("x")` then publishes an event with data `["x"]`, while
`log("LOG", "x")`, the same member called with two arguments, publishes one
with data `["LOG", "x"]`: the two do not emit the same events. -/
theorem generated_log_shadows_log_counterexample :
    addLevelMethods (sampleLevels ["LOG"]) (.string "LOG") sampleLoaded = .ok sampleLogShadowed ∧
    (sampleLevels ["LOG"]).resolve (.string "LOG") = some 8 ∧
    sampleLogShadowed.proto.lookup "log" = some (Generated.levelMethod 8) ∧
    sampleLogShadowed.logWritesEnabled = true ∧
    Logger.invoke (sampleLevels ["LOG"]) 1 "log" ⟨0, "[default]", none⟩ [.string "x"]
        sampleLogShadowed =
      .ok (.undefined, ⟨0, "[default]", none⟩,
        { sampleLogShadowed with published :=
            [{ emitter := 0, topic := "log",
               event := { startTime := 1, categoryName := "[default]", data := [.string "x"],
                          level := 8, logger := 0, location := Location.emptyObject } }] }) ∧
    Logger.callLog (sampleLevels ["LOG"]) 1 ⟨0, "[default]", none⟩ [.string "LOG", .string "x"]
        sampleLogShadowed =
      .ok (.undefined, ⟨0, "[default]", none⟩,
        { sampleLogShadowed with published :=
            [{ emitter := 0, topic := "log",
               event := { startTime := 1, categoryName := "[default]",
                          data := [.string "LOG", .string "x"],
                          level := 8, logger := 0, location := Location.emptyObject } }] }) ∧
    (Logger.invoke (sampleLevels ["LOG"]) 1 "log" ⟨0, "[default]", none⟩ [.string "x"]
        sampleLogShadowed).toOption.map (fun r => r.2.2.published.map (fun p => p.event.data)) ≠
      (Logger.callLog (sampleLevels ["LOG"]) 1 ⟨0, "[default]", none⟩
        [.string "LOG", .string "x"] sampleLogShadowed).toOption.map
          (fun r => r.2.2.published.map (fun p => p.event.data)) := by
  refine ⟨rfl, by decide, by decide, by decide, rfl, rfl, ?_⟩
  decide

/-- C10 (amended): for every level `L` that an input `x` resolves to and whose
canonical name is of ASCII characters and gives a method name that is not empty,
`addLevelMethods(x)` returns normally and attaches the query and the logging
method of `L`; it puts no generated member under a name of `loggingMembers`
unless one of its two names is such a name. In every state
where the two are attached and no generated member stands under a name of
`loggingMembers` (`log`, `isLevelEnabled`, `level`, `_log`, `emit`), for every
logger and every argument list: the query returns `isLevelEnabled(L)` and
changes nothing; with write-enable on, the logging method called with `args`
returns, raises and leaves exactly what the call `log(y, args...)` does for any
`y` resolving to `L`, published events included; with write-enable off it emits
nothing and changes nothing. -/
theorem generated_members_agree_with_log {Level : Type} (lv : Levels Level) (now : Nat)
    (L : Level) (this : Logger Level) :
    (∀ (x : JSValue Level) (q : String) (s0 : State Level), lv.resolve x = some L →
      isAsciiWord (lv.toString L).data = true →
      isEnabledName (levelMethodName (lv.toString L)) = .ok q →
      ∃ s : State Level, addLevelMethods lv x s0 = .ok s ∧
        s.proto.lookup q = some (Generated.isEnabledQuery L) ∧
        s.proto.lookup (levelMethodName (lv.toString L)) = some (Generated.levelMethod L) ∧
        ((∀ k ∈ loggingMembers, s0.proto.lookup k = none) → q ∉ loggingMembers →
          levelMethodName (lv.toString L) ∉ loggingMembers →
          ∀ k ∈ loggingMembers, s.proto.lookup k = none)) ∧
    (∀ (q m : String) (s : State Level),
      (∀ k ∈ loggingMembers, s.proto.lookup k = none) →
      s.proto.lookup q = some (Generated.isEnabledQuery L) →
      s.proto.lookup m = some (Generated.levelMethod L) →
      (∀ args : List (JSValue Level),
        Logger.invoke lv now q this args s =
          .ok (.boolean (this.isLevelEnabled lv L), this, s)) ∧
      (s.logWritesEnabled = true →
        ∀ (y : JSValue Level) (args : List (JSValue Level)), lv.resolve y = some L →
          Logger.invoke lv now m this args s = Logger.callLog lv now this (y :: args) s) ∧
      (s.logWritesEnabled = false →
        ∀ args : List (JSValue Level),
          Logger.invoke lv now m this args s = .ok (.undefined, this, s))) := by
  constructor
  · intro x q s0 hx _ hq
    have hadd : addLevelMethods lv x s0 =
        .ok (setProto (levelMethodName (lv.toString L)) (Generated.levelMethod L)
          (setProto q (Generated.isEnabledQuery L) s0)) := by
      simp only [addLevelMethods, Levels.toLevelNoDefault, hx, hq]
    refine ⟨_, hadd, ?_, ?_, ?_⟩
    · exact (addLevelMethods_lookup lv x L q s0 _ hx hq hadd).1
    · exact (addLevelMethods_lookup lv x L q s0 _ hx hq hadd).2.1
    · intro hfree hqfree hmfree k hk
      have hkm : k ≠ levelMethodName (lv.toString L) := fun h => hmfree (h ▸ hk)
      have hkq : k ≠ q := fun h => hqfree (h ▸ hk)
      rw [lookup_setProto_of_ne _ _ _ _ hkm, lookup_setProto_of_ne _ _ _ _ hkq]
      exact hfree k hk
  · intro q m s hfree hq hm
    have hlog : s.proto.lookup "log" = none := hfree "log" (by decide)
    refine ⟨?_, ?_, ?_⟩
    · intro args
      simp only [Logger.invoke, hq, Logger.isEnabledQuery]
    · intro hw y args hy
      have hres : lv.toLevel y lv.INFO = L := by simp [Levels.toLevel, hy]
      rw [invoke_levelMethod_eq lv now m L this args s hm, callLog_eq_log _ _ _ _ _ hlog,
        log_cons_eq, hres, isLevelEnabled_eq, hw]
      cases lv.isLessThanOrEqualTo (this.level.getD lv.TRACE) L <;> rfl
    · intro hw args
      rw [invoke_levelMethod_eq lv now m L this args s hm, hw]
      rfl

/-- C10 (amended), at the example of the spec: with a custom level AUDIT (rank 8)
registered, `addLevelMethods("AUDIT")` on the loaded module, where no generated
member stands under a name of `loggingMembers`, attaches `isAuditEnabled` and
`audit`; on a logger with threshold WARN the query answers true, and
`audit("x", 7)` returns and leaves what `log("AUDIT", "x", 7)` does. -/
theorem generated_members_agree_with_log_witness :
    (∀ k ∈ loggingMembers, sampleLoaded.proto.lookup k = none) ∧
    ∃ s : State Nat,
      addLevelMethods (sampleLevels ["AUDIT"]) (.string "AUDIT") sampleLoaded = .ok s ∧
      Logger.invoke (sampleLevels ["AUDIT"]) 6 "isAuditEnabled" ⟨3, "auth", some 4⟩ [] s =
        .ok (.boolean true, ⟨3, "auth", some 4⟩, s) ∧
      Logger.invoke (sampleLevels ["AUDIT"]) 6 "audit" ⟨3, "auth", some 4⟩
          [.string "x", .number 7] s =
        Logger.callLog (sampleLevels ["AUDIT"]) 6 ⟨3, "auth", some 4⟩
          [.string "AUDIT", .string "x", .number 7] s := by
  have hfree0 : ∀ k ∈ loggingMembers, sampleLoaded.proto.lookup k = none := by decide
  refine ⟨hfree0, ?_⟩
  obtain ⟨s, hadd, hq, hm, hkeep⟩ :=
    (generated_members_agree_with_log (sampleLevels ["AUDIT"]) 6 8 ⟨3, "auth", some 4⟩).1
      (.string "AUDIT") "isAuditEnabled" sampleLoaded (by decide) (by decide) rfl
  have hfree : ∀ k ∈ loggingMembers, s.proto.lookup k = none :=
    hkeep hfree0 (by decide) (by decide)
  have hw : s.logWritesEnabled = true := by
    have h := addLevelMethods_lookup (sampleLevels ["AUDIT"]) (.string "AUDIT") 8
      "isAuditEnabled" sampleLoaded s (by decide) rfl hadd
    rw [h.2.2.1]
    decide
  have hB := (generated_members_agree_with_log (sampleLevels ["AUDIT"]) 6 8
    ⟨3, "auth", some 4⟩).2 "isAuditEnabled" "audit" s hfree hq hm
  exact ⟨s, hadd, hB.1 [], hB.2.1 hw (.string "AUDIT") [.string "x", .number 7] (by decide)⟩

/-! ## The process-wide switches and the emit path -/

theorem addLevelMethods_flags {Level : Type} (lv : Levels Level) (x : JSValue Level)
    (s0 s : State Level) (hadd : addLevelMethods lv x s0 = .ok s) :
    s.logWritesEnabled = s0.logWritesEnabled ∧ s.logTracing = s0.logTracing ∧
    s.published = s0.published := by
  unfold addLevelMethods at hadd
  split at hadd
  · cases hadd
  · simp only at hadd
    split at hadd
    · cases hadd
    · cases hadd
      exact ⟨rfl, rfl, rfl⟩

theorem foldlM_addLevelMethods_flags {Level : Type} (lv : Levels Level) (names : List String)
    (s0 s : State Level)
    (h : names.foldlM (fun s n => addLevelMethods lv (.string n) s) s0 = .ok s) :
    s.logWritesEnabled = s0.logWritesEnabled ∧ s.logTracing = s0.logTracing ∧
    s.published = s0.published := by
  induction names generalizing s0 with
  | nil =>
    cases h
    exact ⟨rfl, rfl, rfl⟩
  | cons n names ih =>
    rw [List.foldlM_cons] at h
    cases h1 : addLevelMethods lv (.string n) s0 with
    | error e =>
      rw [h1] at h
      cases h
    | ok s1 =>
      rw [h1] at h
      have hs1 := addLevelMethods_flags lv _ s0 s1 h1
      have hs := ih s1 h
      exact ⟨hs.1.trans hs1.1, hs.2.1.trans hs1.2.1, hs.2.2.trans hs1.2.2⟩

/-- C15: the switches start as write-enabled true and trace-enabled false, and are
so when the module has loaded; each of the four control operations sets its
own flag to the stated value and leaves the other flag, the generated members
and the published events as they were (a logger is no argument of them, so no
category and no threshold changes); each is idempotent. -/
theorem switches_change_only_their_flag {Level : Type} (lv : Levels Level) (s : State Level) :
    ((State.fresh Level).logWritesEnabled = true ∧ (State.fresh Level).logTracing = false) ∧
    (∀ s1 : State Level, loadModule lv = .ok s1 →
      s1.logWritesEnabled = true ∧ s1.logTracing = false ∧ s1.published = []) ∧
    (enableAllLogWrites s = { s with logWritesEnabled := true } ∧
      disableAllLogWrites s = { s with logWritesEnabled := false } ∧
      enableLogTracing s = { s with logTracing := true } ∧
      disableLogTracing s = { s with logTracing := false }) ∧
    ((enableAllLogWrites s).logTracing = s.logTracing ∧
      (disableAllLogWrites s).logTracing = s.logTracing ∧
      (enableLogTracing s).logWritesEnabled = s.logWritesEnabled ∧
      (disableLogTracing s).logWritesEnabled = s.logWritesEnabled) ∧
    ((enableAllLogWrites s).published = s.published ∧
      (disableAllLogWrites s).published = s.published ∧
      (enableLogTracing s).published = s.published ∧
      (disableLogTracing s).published = s.published) ∧
    ((enableAllLogWrites s).proto = s.proto ∧ (disableAllLogWrites s).proto = s.proto ∧
      (enableLogTracing s).proto = s.proto ∧ (disableLogTracing s).proto = s.proto) ∧
    (enableAllLogWrites (enableAllLogWrites s) = enableAllLogWrites s ∧
      disableAllLogWrites (disableAllLogWrites s) = disableAllLogWrites s ∧
      enableLogTracing (enableLogTracing s) = enableLogTracing s ∧
      disableLogTracing (disableLogTracing s) = disableLogTracing s) := by
  refine ⟨⟨rfl, rfl⟩, ?_, ⟨rfl, rfl, rfl, rfl⟩, ⟨rfl, rfl, rfl, rfl⟩, ⟨rfl, rfl, rfl, rfl⟩,
    ⟨rfl, rfl, rfl, rfl⟩, ⟨rfl, rfl, rfl, rfl⟩⟩
  intro s1 h
  exact foldlM_addLevelMethods_flags lv wellKnownNames (State.fresh Level) s1 h

/-- C15, at an example: the module loaded against the sample collaborator has
writes enabled, tracing disabled and nothing published. -/
theorem switches_change_only_their_flag_witness :
    sampleLoaded.logWritesEnabled = true ∧ sampleLoaded.logTracing = false ∧
    sampleLoaded.published = [] :=
  (switches_change_only_their_flag (sampleLevels []) sampleLoaded).2.1 sampleLoaded rfl

/-- C16: the emit path `_log(level, data)` does no gating: for every logger, every
state (whatever the write-enable flag is) and every level (whatever the
logger's threshold is) it publishes exactly one event, on the topic "log",
built from the logger's category, the level, the data, the logger and the
location, and returns the logger as it was, with the flags and the generated
members unchanged. -/
theorem emitPath_publishes_ungated {Level : Type} (now : Nat) (this : Logger Level)
    (level : Level) (data : List (JSValue Level)) (s : State Level) :
    (this._log now level data s).1 = this ∧
    (this._log now level data s).2.published =
      s.published ++
        [{ emitter := this.ref, topic := "log",
           event := { startTime := now, categoryName := this.category, data := data,
                      level := level, logger := this.ref,
                      location := if s.logTracing then Location.functionRef "getTraceInfo"
                                  else Location.emptyObject } }] ∧
    (this._log now level data s).2.logWritesEnabled = s.logWritesEnabled ∧
    (this._log now level data s).2.logTracing = s.logTracing ∧
    (this._log now level data s).2.proto = s.proto ∧
    (∀ (b : Bool) (threshold : Option Level),
      (Logger._log now { this with level := threshold } level data
          { s with logWritesEnabled := b }).2.published =
        (this._log now level data s).2.published) :=
  ⟨rfl, rfl, rfl, rfl, rfl, fun _ _ => rfl⟩

/-! ## Construction -/

/-- C13 (as stated, refuted): a logger constructed with the empty string as its
name does not have the empty string as its category: `name || DEFAULT_CATEGORY`
takes the default for every falsy name. -/
theorem constructor_empty_name_counterexample :
    (Logger.new (sampleLevels []) 0 (some "") .undefined).category ≠ "" := by
  decide

/-- C13 (amended): a logger constructed with no name, or with the empty name, has
the category "[default]", and one constructed with a non-empty name has that
name as its category; a logger constructed with no level (or with any falsy
level argument) has no level of its own, so its effective threshold is TRACE;
and one constructed with a truthy level argument that resolves to `L` has
threshold `L`. -/
theorem constructor_category_and_threshold {Level : Type} (lv : Levels Level) (ref : Nat) :
    (∀ level : JSValue Level, (Logger.new lv ref none level).category = "[default]") ∧
    (∀ level : JSValue Level, (Logger.new lv ref (some "") level).category = "[default]") ∧
    (∀ (n : String) (level : JSValue Level), n ≠ "" →
      (Logger.new lv ref (some n) level).category = n) ∧
    (∀ (name : Option String) (level : JSValue Level), level.truthy = false →
      (Logger.new lv ref name level).level = none ∧
      ∀ c : Level, (Logger.new lv ref name level).isLevelEnabled lv c =
        lv.isLessThanOrEqualTo lv.TRACE c) ∧
    (∀ (name : Option String) (c : Level),
      (Logger.new lv ref name .undefined).isLevelEnabled lv c =
        lv.isLessThanOrEqualTo lv.TRACE c) ∧
    (∀ (name : Option String) (level : JSValue Level) (L : Level), level.truthy = true →
      lv.resolve level = some L →
      (Logger.new lv ref name level).level = some L ∧
      ∀ c : Level, (Logger.new lv ref name level).isLevelEnabled lv c =
        lv.isLessThanOrEqualTo L c) := by
  have hcat : ∀ (name : Option String) (level : JSValue Level),
      (Logger.new lv ref name level).category =
        match name with
        | some n => if n != "" then n else DEFAULT_CATEGORY
        | none => DEFAULT_CATEGORY := by
    intro name level
    unfold Logger.new
    by_cases ht : level.truthy = true
    · simp [ht, Logger.setLevel]
    · simp [ht]
  have hfalsy : ∀ (name : Option String) (level : JSValue Level), level.truthy = false →
      (Logger.new lv ref name level).level = none := by
    intro name level ht
    simp [Logger.new, ht]
  refine ⟨?_, ?_, ?_, ?_, ?_, ?_⟩
  · intro level
    rw [hcat]
    rfl
  · intro level
    rw [hcat]
    rfl
  · intro n level hn
    rw [hcat]
    simp [hn]
  · intro name level ht
    refine ⟨hfalsy name level ht, ?_⟩
    intro c
    rw [isLevelEnabled_eq, hfalsy name level ht]
    rfl
  · intro name c
    rw [isLevelEnabled_eq, hfalsy name .undefined rfl]
    rfl
  · intro name level L ht hres
    have hl : (Logger.new lv ref name level).level = some L := by
      simp [Logger.new, ht, Logger.setLevel, Levels.toLevel, hres]
    refine ⟨hl, ?_⟩
    intro c
    rw [isLevelEnabled_eq, hl]
    rfl

/-- C13 (amended), at examples: `new Logger("db", "warn")` has category "db" and
threshold WARN (rank 4); `new Logger()` has category "[default]" and no level of
its own. -/
theorem constructor_category_and_threshold_witness :
    (Logger.new (sampleLevels []) 7 (some "db") (.string "warn")).category = "db" ∧
    (Logger.new (sampleLevels []) 7 (some "db") (.string "warn")).level = some 4 ∧
    (Logger.new (sampleLevels []) 7 none .undefined).category = "[default]" ∧
    (Logger.new (sampleLevels []) 7 none .undefined).level = none :=
  ⟨(constructor_category_and_threshold (sampleLevels []) 7).2.2.1 "db" (.string "warn")
      (by decide),
    ((constructor_category_and_threshold (sampleLevels []) 7).2.2.2.2.2 (some "db")
      (.string "warn") 4 (by decide) (by decide)).1,
    (constructor_category_and_threshold (sampleLevels []) 7).1 .undefined,
    ((constructor_category_and_threshold (sampleLevels []) 7).2.2.2.1 none .undefined
      (by decide)).1⟩

/-! ## The invariant of the threshold -/

theorem log_keeps_logger {Level : Type} (lv : Levels Level) (now : Nat) (this : Logger Level)
    (arguments : List (JSValue Level)) (s : State Level) (r : Logger Level × State Level)
    (hr : Logger.log lv now this arguments s = .ok r) : r.1 = this := by
  rcases log_result lv now this arguments s r hr with h | ⟨level, data, h⟩
  · rw [h]
  · rw [h]
    rfl

theorem invoke_keeps_logger {Level : Type} (lv : Levels Level) (now : Nat) (name : String)
    (this : Logger Level) (arguments : List (JSValue Level)) (s : State Level)
    (r : JSValue Level × Logger Level × State Level)
    (hr : Logger.invoke lv now name this arguments s = .ok r) : r.2.1 = this := by
  rcases invoke_result lv now name this arguments s r hr with h | ⟨level, data, h⟩
  · rw [h]
  · rw [h]
    rfl

theorem setLevel_levelIsResolved {Level : Type} (lv : Levels Level) (this : Logger Level)
    (x : JSValue Level) (h : this.levelIsResolved lv) : (this.setLevel lv x).levelIsResolved lv := by
  intro l hl
  simp only [Logger.setLevel, Option.some.injEq] at hl
  subst hl
  cases hx : lv.resolve x with
  | some l1 =>
    right
    exact ⟨x, by simp [Levels.toLevel, hx]⟩
  | none =>
    simp only [Levels.toLevel, hx]
    cases hown : this.level with
    | none =>
      left
      simp [Logger.readLevel, hown]
    | some l0 =>
      simp only [Logger.readLevel, hown]
      exact h l0 hown

theorem call_levelIsResolved {Level : Type} (lv : Levels Level) (c : LoggerCall Level)
    (ls : Logger Level × State Level) (h : ls.1.levelIsResolved lv) :
    (Logger.call lv c ls).1.levelIsResolved lv ∧ (Logger.call lv c ls).1.ref = ls.1.ref ∧
    (Logger.call lv c ls).1.category = ls.1.category := by
  cases c with
  | setLevel x => exact ⟨setLevel_levelIsResolved lv ls.1 x h, rfl, rfl⟩
  | removeLevel =>
    refine ⟨?_, rfl, rfl⟩
    intro l hl
    have hl2 : (none : Option Level) = some l := hl
    cases hl2
  | log now arguments =>
    simp only [Logger.call]
    cases hr : Logger.log lv now ls.1 arguments ls.2 with
    | error e => exact ⟨h, rfl, rfl⟩
    | ok r =>
      have hk : r.1 = ls.1 := log_keeps_logger lv now ls.1 arguments ls.2 r hr
      show r.1.levelIsResolved lv ∧ r.1.ref = ls.1.ref ∧ r.1.category = ls.1.category
      rw [hk]
      exact ⟨h, rfl, rfl⟩
  | member now name arguments =>
    simp only [Logger.call]
    cases hr : Logger.invoke lv now name ls.1 arguments ls.2 with
    | error e => exact ⟨h, rfl, rfl⟩
    | ok r =>
      have hk : r.2.1 = ls.1 := invoke_keeps_logger lv now name ls.1 arguments ls.2 r hr
      show r.2.1.levelIsResolved lv ∧ r.2.1.ref = ls.1.ref ∧ r.2.1.category = ls.1.category
      rw [hk]
      exact ⟨h, rfl, rfl⟩

theorem calls_levelIsResolved {Level : Type} (lv : Levels Level) (cs : List (LoggerCall Level))
    (ls : Logger Level × State Level) (h : ls.1.levelIsResolved lv) :
    (Logger.calls lv cs ls).1.levelIsResolved lv := by
  induction cs generalizing ls with
  | nil => exact h
  | cons c cs ih =>
    simp only [Logger.calls, List.foldl_cons]
    exact ih (Logger.call lv c ls) (call_levelIsResolved lv c ls h).1

theorem new_levelIsResolved {Level : Type} (lv : Levels Level) (ref : Nat)
    (name : Option String) (level : JSValue Level) :
    (Logger.new lv ref name level).levelIsResolved lv := by
  have h0 : ∀ cat : String, Logger.levelIsResolved lv (⟨ref, cat, none⟩ : Logger Level) := by
    intro cat l hl
    cases hl
  unfold Logger.new
  by_cases ht : level.truthy = true
  · simp only [ht, if_true]
    exact setLevel_levelIsResolved lv _ level (h0 _)
  · simp only [ht]
    exact h0 _

/-- C14: after the construction of a logger and any sequence of `setLevel` (with
any input, recognised or not), `removeLevel`, `log` and generated-member calls,
the own level of the logger is absent or is a Level handed out by the
collaborator (its TRACE or the resolution of some input); so the effective
threshold is always such a Level; and `setLevel(x)` with `x` resolving to `L`
makes the own level, and the threshold, exactly `L`. -/
theorem own_level_is_always_resolved {Level : Type} (lv : Levels Level) (ref : Nat)
    (name : Option String) (level : JSValue Level) (cs : List (LoggerCall Level))
    (s : State Level) :
    (Logger.calls lv cs (Logger.new lv ref name level, s)).1.levelIsResolved lv ∧
    lv.produces ((Logger.calls lv cs (Logger.new lv ref name level, s)).1.readLevel lv) ∧
    (∀ (this : Logger Level) (x : JSValue Level) (L : Level), lv.resolve x = some L →
      (this.setLevel lv x).level = some L ∧ (this.setLevel lv x).readLevel lv = L) := by
  have hinv := calls_levelIsResolved lv cs (Logger.new lv ref name level, s)
    (new_levelIsResolved lv ref name level)
  refine ⟨hinv, ?_, ?_⟩
  · cases hown : (Logger.calls lv cs (Logger.new lv ref name level, s)).1.level with
    | none =>
      left
      simp [Logger.readLevel, hown]
    | some l0 =>
      simp only [Logger.readLevel, hown]
      exact hinv l0 hown
  · intro this x L hx
    simp [Logger.setLevel, Logger.readLevel, Levels.toLevel, hx]

/-- C14, at an example: `new Logger("app", "info")`, then `setLevel("bogus")`,
`removeLevel()`, `setLevel("error")`, `log()`, `warn("x")`: the own level is
ERROR (rank 5), the Level that "error" resolves to. -/
theorem own_level_is_always_resolved_witness :
    (Logger.calls (sampleLevels [])
        [.setLevel (.string "bogus"), .removeLevel, .setLevel (.string "error"), .log 1 [],
          .member 2 "warn" [.string "x"]]
        (Logger.new (sampleLevels []) 0 (some "app") (.string "info"), sampleLoaded)).1.level =
      some 5 ∧
    (sampleLevels []).produces 5 ∧
    (Logger.setLevel (sampleLevels []) ⟨0, "app", none⟩ (.string "error")).level = some 5 :=
  ⟨rfl,
    (own_level_is_always_resolved (sampleLevels []) 0 (some "app") (.string "info")
      [.setLevel (.string "bogus"), .removeLevel, .setLevel (.string "error"), .log 1 [],
        .member 2 "warn" [.string "x"]] sampleLoaded).2.1,
    ((own_level_is_always_resolved (sampleLevels []) 0 (some "app") (.string "info") []
      sampleLoaded).2.2 ⟨0, "app", none⟩ (.string "error") 5 (by decide)).1⟩

/-! ## Monotonicity of the filter -/

theorem setLevel_readLevel {Level : Type} (lv : Levels Level) (this : Logger Level)
    (x : JSValue Level) (L : Level) (hx : lv.resolve x = some L) :
    (this.setLevel lv x).level = some L := by
  simp [Logger.setLevel, Levels.toLevel, hx]

/-- C19: given that the Level order is transitive (as a total preorder is), the
filter is monotone in both arguments. For every logger, if `isLevelEnabled(a)`
holds and `a <= b` then `isLevelEnabled(b)` holds. For thresholds `t1 <= t2`,
every level accepted under threshold `t2` is accepted under `t1`; so a call of
`log`, or of a generated per-level method, that is filtered out under `t1`
emits nothing and changes nothing under `t2` either. -/
theorem filtering_is_monotone {Level : Type} (lv : Levels Level)
    (htrans : ∀ a b c : Level, lv.isLessThanOrEqualTo a b = true →
      lv.isLessThanOrEqualTo b c = true → lv.isLessThanOrEqualTo a c = true)
    (this : Logger Level) :
    (∀ a b : Level, this.isLevelEnabled lv a = true → lv.isLessThanOrEqualTo a b = true →
      this.isLevelEnabled lv b = true) ∧
    (∀ (x1 x2 : JSValue Level) (t1 t2 : Level), lv.resolve x1 = some t1 →
      lv.resolve x2 = some t2 → lv.isLessThanOrEqualTo t1 t2 = true →
      (∀ c : Level, (this.setLevel lv x2).isLevelEnabled lv c = true →
        (this.setLevel lv x1).isLevelEnabled lv c = true) ∧
      (∀ (now : Nat) (y : JSValue Level) (payload : List (JSValue Level)) (s : State Level),
        (this.setLevel lv x1).isLevelEnabled lv ((lv.resolve y).getD lv.INFO) = false →
        Logger.log lv now (this.setLevel lv x2) (y :: payload) s =
          .ok (this.setLevel lv x2, s)) ∧
      (∀ (now : Nat) (name : String) (L : Level) (args : List (JSValue Level))
          (s : State Level), s.proto.lookup name = some (Generated.levelMethod L) →
        (this.setLevel lv x1).isLevelEnabled lv L = false →
        Logger.invoke lv now name (this.setLevel lv x2) args s =
          .ok (.undefined, this.setLevel lv x2, s))) := by
  constructor
  · intro a b ha hab
    rw [isLevelEnabled_eq] at ha ⊢
    exact htrans _ a b ha hab
  · intro x1 x2 t1 t2 h1 h2 h12
    have hl1 := setLevel_readLevel lv this x1 t1 h1
    have hl2 := setLevel_readLevel lv this x2 t2 h2
    have hmono : ∀ c : Level, (this.setLevel lv x2).isLevelEnabled lv c = true →
        (this.setLevel lv x1).isLevelEnabled lv c = true := by
      intro c hc
      rw [isLevelEnabled_eq, hl2] at hc
      rw [isLevelEnabled_eq, hl1]
      exact htrans t1 t2 c h12 hc
    have hoff : ∀ c : Level, (this.setLevel lv x1).isLevelEnabled lv c = false →
        (this.setLevel lv x2).isLevelEnabled lv c = false := by
      intro c hc
      cases h : (this.setLevel lv x2).isLevelEnabled lv c with
      | false => rfl
      | true =>
        rw [hmono c h] at hc
        cases hc
    refine ⟨hmono, ?_, ?_⟩
    · intro now y payload s hf
      rw [log_cons_eq, toLevel_eq, hoff _ hf]
      rfl
    · intro now name L args s hgen hf
      have h := hoff L hf
      rw [isLevelEnabled_eq] at h
      rw [invoke_levelMethod_eq lv now name L _ args s hgen, h]
      simp

/-- C19, at an example: under the order of the ranks, DEBUG (rank 2) is filtered
out under threshold INFO (rank 3), and so `debug("x")` emits nothing under
threshold ERROR (rank 5). -/
theorem filtering_is_monotone_witness :
    Logger.invoke (sampleLevels []) 4 "debug"
        (Logger.setLevel (sampleLevels []) ⟨0, "app", none⟩ (.string "error")) [.string "x"]
        sampleLoaded =
      .ok (.undefined, Logger.setLevel (sampleLevels []) ⟨0, "app", none⟩ (.string "error"),
        sampleLoaded) :=
  ((filtering_is_monotone (sampleLevels [])
      (fun _ _ _ hab hbc =>
        decide_eq_true (Nat.le_trans (of_decide_eq_true hab) (of_decide_eq_true hbc)))
      ⟨0, "app", none⟩).2 (.string "info") (.string "error") 3 5 (by decide) (by decide)
      (by decide)).2.2 4 "debug" 2 [.string "x"] sampleLoaded (by decide) (by decide)

/-! ## Call-site capture -/

theorem lastIndexOf_of_not_mem (c : Char) (cs : List Char) (h : c ∉ cs) :
    lastIndexOf c cs = -1 := by
  have hnone : cs.reverse.indexOf? c = none := by
    rw [List.indexOf?_eq_none_iff]
    intro x hx hxc
    have hxeq : x = c := by simpa using hxc
    exact h (hxeq ▸ List.mem_reverse.mp hx)
  simp [lastIndexOf, hnone]

theorem lastIndexOf_append_cons (c : Char) (pre suf : List Char) (h : c ∉ suf) :
    lastIndexOf c (pre ++ c :: suf) = pre.length := by
  have hsuf : suf.reverse.findIdx? (fun x => x == c) = none := by
    rw [List.findIdx?_eq_none_iff]
    intro x hx
    have hxs : x ∈ suf := List.mem_reverse.mp hx
    have hne : x ≠ c := fun hxc => h (hxc ▸ hxs)
    simpa using hne
  have hidx : (pre ++ c :: suf).reverse.indexOf? c = some suf.length := by
    simp [List.indexOf?, List.findIdx?_append, hsuf, List.findIdx?_cons]
  simp only [lastIndexOf, hidx, List.length_append, List.length_cons]
  push_cast
  omega

theorem exists_last_split (c : Char) (cs : List Char) (h : c ∈ cs) :
    ∃ pre suf : List Char, cs = pre ++ c :: suf ∧ c ∉ suf := by
  induction cs with
  | nil => cases h
  | cons a t ih =>
    by_cases ht : c ∈ t
    · obtain ⟨pre, suf, hcs, hsuf⟩ := ih ht
      exact ⟨a :: pre, suf, by rw [hcs]; rfl, hsuf⟩
    · have ha : c = a := by
        rcases List.mem_cons.mp h with h1 | h1
        · exact h1
        · exact absurd h1 ht
      exact ⟨[], t, by rw [ha]; rfl, ht⟩

theorem drop_lastIndexOf (cs : List Char) :
    ('/' ∉ cs ∧ cs.drop (lastIndexOf '/' cs + 1).toNat = cs) ∨
    ∃ pre suf : List Char, cs = pre ++ '/' :: suf ∧ '/' ∉ suf ∧
      cs.drop (lastIndexOf '/' cs + 1).toNat = suf := by
  by_cases h : '/' ∈ cs
  · right
    obtain ⟨pre, suf, hcs, hsuf⟩ := exists_last_split '/' cs h
    refine ⟨pre, suf, hcs, hsuf, ?_⟩
    rw [hcs, lastIndexOf_append_cons '/' pre suf hsuf]
    have hn : ((pre.length : Int) + 1).toNat = pre.length + 1 := by omega
    rw [hn]
    simp
  · left
    refine ⟨h, ?_⟩
    rw [lastIndexOf_of_not_mem '/' cs h]
    rfl

/-- C17: for every call stack with a frame at index 8 whose file name is the
string `p`, `getTraceInfo` returns `path = p`, `file` = the part of `p` after
its last "/" (it contains no "/", and is `p` itself when `p` contains none),
and `function`, `line` and `column` as that frame gives them; only the frame at
index 8 is used: two stacks that agree there give the same result. -/
theorem getTraceInfo_reads_frame_eight (stack : List CallSite) (frame : CallSite) (p : String)
    (hframe : stack.get? 8 = some frame) (hname : frame.fileName = some p) :
    (∃ file : String,
      getTraceInfo stack =
        .ok { path := p, file := file, function := frame.functionName,
              line := frame.lineNumber, column := frame.columnNumber } ∧
      '/' ∉ file.data ∧
      (('/' ∉ p.data ∧ file = p) ∨ ∃ pre : List Char, p.data = pre ++ '/' :: file.data)) ∧
    (∀ other : List CallSite, other.get? 8 = stack.get? 8 →
      getTraceInfo other = getTraceInfo stack) := by
  constructor
  · refine ⟨String.mk (p.data.drop (lastIndexOf '/' p.data + 1).toNat), ?_, ?_, ?_⟩
    · simp only [getTraceInfo, hframe, hname]
    · rcases drop_lastIndexOf p.data with ⟨hno, hd⟩ | ⟨pre, suf, hp, hsuf, hd⟩
      · rw [hd]
        exact hno
      · rw [hd]
        exact hsuf
    · rcases drop_lastIndexOf p.data with ⟨hno, hd⟩ | ⟨pre, suf, hp, hsuf, hd⟩
      · left
        refine ⟨hno, ?_⟩
        rw [hd]
      · right
        refine ⟨pre, ?_⟩
        rw [hd]
        exact hp
  · intro other hother
    simp only [getTraceInfo, hother]

/-- C17, at an example: with the frame at index 8 in `/srv/app/lib/db.js`, function
`connect`, line 42, column 7, the result has file `db.js`; a stack that has
further frames behind index 8 gives the same result. -/
theorem getTraceInfo_reads_frame_eight_witness :
    getTraceInfo sampleStack =
      .ok { path := "/srv/app/lib/db.js", file := "db.js", function := some "connect",
            line := some 42, column := some 7 } ∧
    getTraceInfo (sampleStack ++ [⟨none, none, none, none⟩]) = getTraceInfo sampleStack :=
  ⟨rfl,
    (getTraceInfo_reads_frame_eight sampleStack
      ⟨some "/srv/app/lib/db.js", some "connect", some 42, some 7⟩ "/srv/app/lib/db.js"
      rfl rfl).2 (sampleStack ++ [⟨none, none, none, none⟩]) rfl⟩

/-- C18 (as stated, refuted): on the empty call stack, and on a stack whose frame
at index 8 has no file name, `getTraceInfo` raises a `TypeError`; it returns no
location, empty or other. -/
theorem getTraceInfo_raises_counterexample :
    getTraceInfo [] = .error .typeError ∧
    getTraceInfo (List.replicate 9 ⟨none, some "anonymous", some 1, some 1⟩) =
      .error .typeError :=
  ⟨rfl, rfl⟩

/-- C18 (amended): `getTraceInfo` has no guard. On a call stack with fewer than
nine frames, and on one whose frame at index 8 has no file name, it raises a
`TypeError`; it returns a call-site descriptor exactly when the stack has a
frame at index 8 and that frame has a file name. -/
theorem getTraceInfo_raises_without_frame (stack : List CallSite) :
    (stack.length < 9 → getTraceInfo stack = .error .typeError) ∧
    (∀ frame : CallSite, stack.get? 8 = some frame → frame.fileName = none →
      getTraceInfo stack = .error .typeError) ∧
    ((∃ t : TraceInfo, getTraceInfo stack = .ok t) ↔
      ∃ (frame : CallSite) (p : String), stack.get? 8 = some frame ∧ frame.fileName = some p) := by
  refine ⟨?_, ?_, ?_⟩
  · intro hlen
    have hnone : stack.get? 8 = none := List.get?_eq_none.mpr (by omega)
    simp only [getTraceInfo, hnone]
  · intro frame hframe hname
    simp only [getTraceInfo, hframe, hname]
  · constructor
    · rintro ⟨t, ht⟩
      cases hframe : stack.get? 8 with
      | none =>
        simp only [getTraceInfo, hframe] at ht
        cases ht
      | some frame =>
        cases hname : frame.fileName with
        | none =>
          simp only [getTraceInfo, hframe, hname] at ht
          cases ht
        | some p => exact ⟨frame, p, rfl, hname⟩
    · rintro ⟨frame, p, hframe, hname⟩
      have h : getTraceInfo stack =
          .ok { path := p,
                file := String.mk (p.data.drop (lastIndexOf '/' p.data + 1).toNat),
                function := frame.functionName, line := frame.lineNumber,
                column := frame.columnNumber } := by
        simp only [getTraceInfo, hframe, hname]
      exact ⟨_, h⟩

/-- C18 (amended), at examples: a stack of five frames makes `getTraceInfo` raise,
the sample stack of nine frames does not. -/
theorem getTraceInfo_raises_without_frame_witness :
    getTraceInfo (sampleStack.take 5) = .error .typeError ∧
    ∃ t : TraceInfo, getTraceInfo sampleStack = .ok t :=
  ⟨(getTraceInfo_raises_without_frame (sampleStack.take 5)).1 (by decide),
    (getTraceInfo_raises_without_frame sampleStack).2.2.mpr
      ⟨⟨some "/srv/app/lib/db.js", some "connect", some 42, some 7⟩, "/srv/app/lib/db.js",
        rfl, rfl⟩⟩

/-! ## Idempotence of the generation -/

theorem setProto_pair_proto {Level : Type} (q m : String) (Q M : Generated Level)
    (s : State Level) (hqm : q ≠ m) :
    (setProto m M (setProto q Q s)).proto =
      (m, M) :: (q, Q) ::
        (s.proto.filter (fun p => p.1 != q)).filter (fun p => p.1 != m) := by
  have h : (q != m) = true := by simpa using hqm
  simp [setProto, List.filter, h]

theorem setProto_pair_twice {Level : Type} (q m : String) (Q M : Generated Level)
    (s : State Level) (hqm : q ≠ m) :
    setProto m M (setProto q Q (setProto m M (setProto q Q s))) =
      setProto m M (setProto q Q s) := by
  have hproto : (setProto m M (setProto q Q (setProto m M (setProto q Q s)))).proto =
      (setProto m M (setProto q Q s)).proto := by
    rw [setProto_pair_proto q m Q M _ hqm, setProto_pair_proto q m Q M s hqm]
    have h1 : (q != m) = true := by simpa using hqm
    have h2 : (m != q) = true := by simpa using (Ne.symm hqm)
    simp only [List.filter, bne_self_eq_false, h1, h2, List.filter_filter]
    congr 2
    apply List.filter_congr
    intro p _
    cases (p.1 != m) <;> cases (p.1 != q) <;> rfl
  have hrest : ∀ a b : State Level, a.logWritesEnabled = b.logWritesEnabled →
      a.logTracing = b.logTracing → a.proto = b.proto → a.published = b.published → a = b := by
    intro a b h1 h2 h3 h4
    cases a
    cases b
    simp only [State.mk.injEq]
    exact ⟨h1, h2, h3, h4⟩
  exact hrest _ _ rfl rfl hproto rfl

theorem invoke_congr_state {Level : Type} (lv : Levels Level) (now : Nat) (name : String)
    (this : Logger Level) (arguments : List (JSValue Level)) (s t : State Level)
    (hlookup : t.proto.lookup name = s.proto.lookup name)
    (hw : t.logWritesEnabled = s.logWritesEnabled) (htr : t.logTracing = s.logTracing)
    (hp : t.published = s.published) :
    (Logger.invoke lv now name this arguments t).map (fun r => (r.1, r.2.1, r.2.2.published)) =
      (Logger.invoke lv now name this arguments s).map
        (fun r => (r.1, r.2.1, r.2.2.published)) := by
  unfold Logger.invoke
  rw [hlookup]
  cases hl : s.proto.lookup name with
  | none => rfl
  | some g =>
    cases g with
    | isEnabledQuery level => simp [Except.map, hp]
    | levelMethod level =>
      simp only [levelMethod_eq, hw]
      by_cases h : (s.logWritesEnabled && this.isLevelEnabled lv level) = true
      · simp [h, Except.map, Logger._log, emit, hp, htr]
      · simp [h, Except.map, hp]

/-- C12: `addLevelMethods` is idempotent per level name. For every input `n` and
every prior state in which `addLevelMethods(n)` returns, calling it a second
time returns the very state the first call left; in that state the table holds
one query and one logging method for `n`, in front of the entries of other
names that were there before, and no entry of these two names besides. And in
every state where the query and the logging method of `n` are the ones attached
under its names (as for the seven names after the module loaded), calling it
again leaves the flags, the published events and every lookup as they were, so
every generated member returns, raises and publishes as before. -/
theorem addLevelMethods_idempotent {Level : Type} (lv : Levels Level) (n : JSValue Level)
    (L : Level) (q : String) (hn : lv.resolve n = some L)
    (hq : isEnabledName (levelMethodName (lv.toString L)) = .ok q) :
    (∀ s0 : State Level,
      ∃ s1 : State Level, addLevelMethods lv n s0 = .ok s1 ∧ addLevelMethods lv n s1 = .ok s1 ∧
        s1.proto =
          (levelMethodName (lv.toString L), Generated.levelMethod L) ::
            (q, Generated.isEnabledQuery L) ::
              (s0.proto.filter (fun p => p.1 != q)).filter
                (fun p => p.1 != levelMethodName (lv.toString L)) ∧
        ∀ p ∈ (s0.proto.filter (fun p => p.1 != q)).filter
            (fun p => p.1 != levelMethodName (lv.toString L)),
          p.1 ≠ q ∧ p.1 ≠ levelMethodName (lv.toString L)) ∧
    (∀ s : State Level, s.proto.lookup q = some (Generated.isEnabledQuery L) →
      s.proto.lookup (levelMethodName (lv.toString L)) = some (Generated.levelMethod L) →
      ∃ t : State Level, addLevelMethods lv n s = .ok t ∧
        t.logWritesEnabled = s.logWritesEnabled ∧ t.logTracing = s.logTracing ∧
        t.published = s.published ∧
        (∀ k : String, t.proto.lookup k = s.proto.lookup k) ∧
        (∀ (now : Nat) (name : String) (this : Logger Level) (arguments : List (JSValue Level)),
          (Logger.invoke lv now name this arguments t).map
              (fun r => (r.1, r.2.1, r.2.2.published)) =
            (Logger.invoke lv now name this arguments s).map
              (fun r => (r.1, r.2.1, r.2.2.published)))) := by
  have hqm : q ≠ levelMethodName (lv.toString L) := isEnabledName_ne _ _ hq
  have hadd : ∀ s : State Level, addLevelMethods lv n s =
      .ok (setProto (levelMethodName (lv.toString L)) (Generated.levelMethod L)
        (setProto q (Generated.isEnabledQuery L) s)) := by
    intro s
    simp only [addLevelMethods, Levels.toLevelNoDefault, hn, hq]
  constructor
  · intro s0
    refine ⟨_, hadd s0, ?_, setProto_pair_proto q _ _ _ s0 hqm, ?_⟩
    · rw [hadd, setProto_pair_twice q _ _ _ s0 hqm]
    · intro p hp
      simp only [List.mem_filter] at hp
      exact ⟨by simpa using hp.1.2, by simpa using hp.2⟩
  · intro s hsq hsm
    have hlookup : ∀ k : String,
        (setProto (levelMethodName (lv.toString L)) (Generated.levelMethod L)
          (setProto q (Generated.isEnabledQuery L) s)).proto.lookup k = s.proto.lookup k := by
      intro k
      by_cases hkm : k = levelMethodName (lv.toString L)
      · rw [hkm, lookup_setProto_self, hsm]
      · rw [lookup_setProto_of_ne _ _ _ _ hkm]
        by_cases hkq : k = q
        · rw [hkq, lookup_setProto_self, hsq]
        · rw [lookup_setProto_of_ne _ _ _ _ hkq]
    refine ⟨_, hadd s, rfl, rfl, rfl, hlookup, ?_⟩
    intro now name this arguments
    exact invoke_congr_state lv now name this arguments s _ (hlookup name) rfl rfl rfl

/-- C12, at examples: with a custom level AUDIT registered, a second
`addLevelMethods("audit")` on the loaded module returns the state the first one
left; and `addLevelMethods("Warn")` on the loaded module, where `warn` and
`isWarnEnabled` are in place, leaves every lookup as it was. -/
theorem addLevelMethods_idempotent_witness :
    (∃ s1 : State Nat,
      addLevelMethods (sampleLevels ["AUDIT"]) (.string "audit") sampleLoaded = .ok s1 ∧
      addLevelMethods (sampleLevels ["AUDIT"]) (.string "audit") s1 = .ok s1) ∧
    (∃ t : State Nat,
      addLevelMethods (sampleLevels []) (.string "Warn") sampleLoaded = .ok t ∧
      ∀ k : String, t.proto.lookup k = sampleLoaded.proto.lookup k) := by
  constructor
  · obtain ⟨s1, h1, h2, _⟩ :=
      (addLevelMethods_idempotent (sampleLevels ["AUDIT"]) (.string "audit") 8 "isAuditEnabled"
        (by decide) rfl).1 sampleLoaded
    exact ⟨s1, h1, h2⟩
  · obtain ⟨t, h1, _, _, _, h2, _⟩ :=
      (addLevelMethods_idempotent (sampleLevels []) (.string "Warn") 4 "isWarnEnabled"
        (by decide) rfl).2 sampleLoaded (by decide) (by decide)
    exact ⟨t, h1, h2⟩

/-! ## The names of the generated members -/

theorem toLower_ne_underscore (c : Char) (h : c ≠ '_') : c.toLower ≠ '_' := by
  unfold Char.toLower
  simp only []
  split
  · rename_i hr
    generalize c.toNat = n at hr
    obtain ⟨h1, h2⟩ := hr
    interval_cases n <;> decide
  · exact h

theorem toUpper_ne_underscore (d : Char) (h1 : 'a' ≤ d) (h2 : d ≤ 'z') : d.toUpper ≠ '_' := by
  have h1n : 97 ≤ d.toNat := h1
  have h2n : d.toNat ≤ 122 := h2
  unfold Char.toUpper
  simp only [ge_iff_le, h1n, h2n, and_self, if_true]
  generalize d.toNat = n at h1n h2n
  interval_cases n <;> decide

theorem toLower_of_isAlpha (c : Char) (h : c.isAlpha = true) :
    'a' ≤ c.toLower ∧ c.toLower ≤ 'z' := by
  have hc : (65 ≤ c.toNat ∧ c.toNat ≤ 90) ∨ (97 ≤ c.toNat ∧ c.toNat ≤ 122) := by
    simp only [Char.isAlpha, Char.isUpper, Char.isLower, Bool.or_eq_true, Bool.and_eq_true,
      decide_eq_true_eq] at h
    exact h
  rcases hc with ⟨h1, h2⟩ | ⟨h1, h2⟩
  · unfold Char.toLower
    simp only [ge_iff_le, h1, h2, and_self, if_true]
    generalize c.toNat = n at h1 h2
    interval_cases n <;> decide
  · unfold Char.toLower
    have hn : ¬ (c.toNat ≥ 65 ∧ c.toNat ≤ 90) := by omega
    simp only [hn, if_false]
    exact ⟨h1, h2⟩

theorem toLower_ascii (c : Char) (h : c.toNat < 128) : c.toLower.toNat < 128 := by
  unfold Char.toLower
  simp only []
  split
  · rename_i hr
    generalize c.toNat = n at hr
    obtain ⟨h1, h2⟩ := hr
    interval_cases n <;> decide
  · exact h

theorem toUpper_ascii (c : Char) (h : c.toNat < 128) : c.toUpper.toNat < 128 := by
  unfold Char.toUpper
  simp only []
  split
  · rename_i hr
    generalize c.toNat = n at hr
    obtain ⟨h1, h2⟩ := hr
    interval_cases n <;> decide
  · exact h

theorem replaceUnderscoreLower_of_not_mem (w : List Char) (h : '_' ∉ w) :
    replaceUnderscoreLower w = w := by
  induction w with
  | nil => rfl
  | cons c t ih =>
    have hc : c ≠ '_' := fun hc => h (hc ▸ List.mem_cons_self _ _)
    have ht : '_' ∉ t := fun ht => h (List.mem_cons_of_mem _ ht)
    cases t with
    | nil => rfl
    | cons d rest =>
      rw [replaceUnderscoreLower, if_neg (fun hcond => hc hcond.1), ih ht]

theorem replaceUnderscoreLower_word (w : List Char) (d : Char) (rest : List Char)
    (h : '_' ∉ w) (h1 : 'a' ≤ d) (h2 : d ≤ 'z') :
    replaceUnderscoreLower (w ++ '_' :: d :: rest) =
      w ++ d.toUpper :: replaceUnderscoreLower rest := by
  induction w with
  | nil =>
    simp only [List.nil_append]
    rw [replaceUnderscoreLower, if_pos ⟨rfl, h1, h2⟩]
  | cons c t ih =>
    have hc : c ≠ '_' := fun hc => h (hc ▸ List.mem_cons_self _ _)
    have ht : '_' ∉ t := fun ht => h (List.mem_cons_of_mem _ ht)
    cases t with
    | nil =>
      simp only [List.cons_append, List.nil_append] at ih ⊢
      rw [replaceUnderscoreLower, if_neg (fun hcond => hc hcond.1), ih ht]
    | cons e t2 =>
      simp only [List.cons_append] at ih ⊢
      rw [replaceUnderscoreLower, if_neg (fun hcond => hc hcond.1), ih ht]

theorem replaceUnderscoreLower_joinWords (first : List Char) (others : List (List Char))
    (hfirst : '_' ∉ first)
    (hothers : ∀ w ∈ others, '_' ∉ w ∧ ∃ (c : Char) (r : List Char),
      w = c :: r ∧ 'a' ≤ c ∧ c ≤ 'z') :
    replaceUnderscoreLower (joinWords first others) =
      first ++ (others.map capitalize).flatten := by
  induction others generalizing first with
  | nil => simpa [joinWords] using replaceUnderscoreLower_of_not_mem first hfirst
  | cons w ws ih =>
    obtain ⟨hw, c, r, hwc, h1, h2⟩ := hothers w (List.mem_cons_self _ _)
    subst hwc
    have hr : '_' ∉ r := fun hr => hw (List.mem_cons_of_mem _ hr)
    have hstep := ih r hr (fun v hv => hothers v (List.mem_cons_of_mem _ hv))
    simp only [joinWords, List.map_cons, List.flatten_cons, List.cons_append] at hstep ⊢
    rw [replaceUnderscoreLower_word first c _ hfirst h1 h2, hstep]
    simp [capitalize]

theorem map_toLower_joinWords (first : List Char) (others : List (List Char)) :
    (joinWords first others).map Char.toLower =
      joinWords (first.map Char.toLower) (others.map (fun w => w.map Char.toLower)) := by
  have h : Char.toLower '_' = '_' := by decide
  simp [joinWords, List.map_flatten, Function.comp_def, h]

/-- C11 (as stated, refuted): the canonical name `LEVEL_1`, the words `LEVEL` and
`1` separated by an underscore, gives the method name `level_1`: the underscore
is still there and the name is not the camel-cased `level1`. The pattern
`/_([a-z])/g` leaves an underscore that no lower-case letter follows. -/
theorem levelMethodName_underscore_counterexample :
    levelMethodName (String.mk (joinWords "LEVEL".data ["1".data])) = "level_1" ∧
    '_' ∈ (levelMethodName (String.mk (joinWords "LEVEL".data ["1".data]))).data ∧
    (levelMethodName (String.mk (joinWords "LEVEL".data ["1".data]))).data ≠
      camelCaseOfWords "LEVEL".data ["1".data] := by
  decide

/-- C11 (amended): for every canonical name of ASCII characters made of words
without underscores, separated by single underscores, in which every word after
the first begins with a letter, the name of the generated logging method is the
canonical name lower-cased and camel-cased (each underscore removed, the first
character of the following word upper-cased), contains no underscore and is
again of ASCII characters; and the query name is "is" + that name with its
first character upper-cased + "Enabled". -/
theorem levelMethodName_camelCase (first : List Char) (others : List (List Char))
    (hascii : ∀ w ∈ first :: others, isAsciiWord w = true)
    (hfirst : '_' ∉ first)
    (hwords : ∀ w ∈ others, '_' ∉ w ∧ beginsWithLetter w = true) :
    (levelMethodName (String.mk (joinWords first others))).data =
      camelCaseOfWords first others ∧
    '_' ∉ (levelMethodName (String.mk (joinWords first others))).data ∧
    isAsciiWord (levelMethodName (String.mk (joinWords first others))).data = true ∧
    (∀ (c : Char) (rest : List Char), camelCaseOfWords first others = c :: rest →
      isEnabledName (levelMethodName (String.mk (joinWords first others))) =
        .ok ("is" ++ String.mk (c.toUpper :: rest) ++ "Enabled")) := by
  have hothers : ∀ w ∈ others, '_' ∉ w ∧ ∃ (c : Char) (r : List Char),
      w = c :: r ∧ c.isAlpha = true := by
    intro w hw
    refine ⟨(hwords w hw).1, ?_⟩
    have hb := (hwords w hw).2
    cases w with
    | nil => cases hb
    | cons c r => exact ⟨c, r, rfl, hb⟩
  have hmap : ∀ w : List Char, '_' ∉ w → '_' ∉ w.map Char.toLower := by
    intro w hw hmem
    obtain ⟨c, hc, hcl⟩ := List.mem_map.mp hmem
    exact toLower_ne_underscore c (fun h => hw (h ▸ hc)) hcl
  have hlow : ∀ w ∈ others.map (fun w => w.map Char.toLower), '_' ∉ w ∧
      ∃ (c : Char) (r : List Char), w = c :: r ∧ 'a' ≤ c ∧ c ≤ 'z' := by
    intro w hw
    obtain ⟨v, hv, hvw⟩ := List.mem_map.mp hw
    obtain ⟨hno, c, r, hvc, halpha⟩ := hothers v hv
    subst hvw
    refine ⟨hmap v hno, c.toLower, r.map Char.toLower, ?_, toLower_of_isAlpha c halpha⟩
    rw [hvc]
    rfl
  have hname : (levelMethodName (String.mk (joinWords first others))).data =
      camelCaseOfWords first others := by
    show replaceUnderscoreLower ((joinWords first others).map Char.toLower) = _
    rw [map_toLower_joinWords, replaceUnderscoreLower_joinWords _ _ (hmap first hfirst) hlow]
    simp [camelCaseOfWords, Function.comp_def]
  have hnone : '_' ∉ camelCaseOfWords first others := by
    intro hmem
    simp only [camelCaseOfWords, List.mem_append, List.mem_flatten, List.mem_map] at hmem
    rcases hmem with hmem | ⟨l, ⟨w, hw, hwl⟩, hl⟩
    · exact hmap first hfirst (List.mem_map.mpr hmem)
    · obtain ⟨hno, c, r, hwc, halpha⟩ := hothers w hw
      subst hwl
      subst hwc
      simp only [List.map_cons, capitalize, List.mem_cons] at hl
      rcases hl with hl | hl
      · exact toUpper_ne_underscore c.toLower (toLower_of_isAlpha c halpha).1
          (toLower_of_isAlpha c halpha).2 hl.symm
      · exact hmap r (fun h => hno (List.mem_cons_of_mem _ h)) hl
  have hall : ∀ w ∈ first :: others, ∀ c ∈ w, c.toNat < 128 := by
    intro w hw c hc
    have hw2 := hascii w hw
    simp only [isAsciiWord, List.all_eq_true, decide_eq_true_eq] at hw2
    exact hw2 c hc
  have hasc : isAsciiWord (camelCaseOfWords first others) = true := by
    simp only [isAsciiWord, List.all_eq_true, decide_eq_true_eq]
    intro c hc
    simp only [camelCaseOfWords, List.mem_append, List.mem_flatten, List.mem_map] at hc
    rcases hc with ⟨a, ha, hac⟩ | ⟨l, ⟨w, hw, hwl⟩, hl⟩
    · rw [← hac]
      exact toLower_ascii a (hall first (List.mem_cons_self _ _) a ha)
    · subst hwl
      cases w with
      | nil => simp [capitalize] at hl
      | cons d r =>
        simp only [List.map_cons, capitalize, List.mem_cons, List.mem_map] at hl
        rcases hl with hl | ⟨a, ha, hac⟩
        · rw [hl]
          exact toUpper_ascii _ (toLower_ascii d
            (hall _ (List.mem_cons_of_mem _ hw) d (List.mem_cons_self _ _)))
        · rw [← hac]
          exact toLower_ascii a
            (hall _ (List.mem_cons_of_mem _ hw) a (List.mem_cons_of_mem _ ha))
  refine ⟨hname, ?_, ?_, ?_⟩
  · rw [hname]
    exact hnone
  · rw [hname]
    exact hasc
  · intro c rest hc
    simp only [isEnabledName, hname, hc]

/-- C11 (amended), at examples: "Trace" gives `trace` and `isTraceEnabled`, and
"VERY_LOUD" gives `veryLoud` and `isVeryLoudEnabled`. -/
theorem levelMethodName_camelCase_witness :
    (levelMethodName "Trace").data = "trace".data ∧
    isEnabledName (levelMethodName "Trace") = .ok "isTraceEnabled" ∧
    (levelMethodName "VERY_LOUD").data = "veryLoud".data ∧
    isEnabledName (levelMethodName "VERY_LOUD") = .ok "isVeryLoudEnabled" :=
  ⟨(levelMethodName_camelCase "Trace".data [] (by decide) (by decide) (by decide)).1,
    (levelMethodName_camelCase "Trace".data [] (by decide) (by decide) (by decide)).2.2.2
      't' "race".data rfl,
    (levelMethodName_camelCase "VERY".data ["LOUD".data] (by decide) (by decide)
      (by decide)).1,
    (levelMethodName_camelCase "VERY".data ["LOUD".data] (by decide) (by decide)
      (by decide)).2.2.2 'v' "eryLoud".data rfl⟩

end Log4js
